import Mathlib

/-!
# BorgDash ingest-and-aggregate storage layer: a shallow embedding

This file embeds the core of the BorgDash backend (`backend/storage.py`,
`backend/validation.py`, `backend/config.py`, the push/query routes of
`backend/main.py`) as executable Lean definitions, and proves or refutes
the frozen claims about its specification.

Modelling conventions, used throughout:

* A JSON object persisted by the service (the job summary, a run record,
  a job configuration) is modelled as a structure with one `Option` field
  per key the Python code reads or writes; `none` means the key is absent.
* Timestamps (`datetime` values and their `isoformat()` strings) are
  modelled by naturals.  ISO-8601 strings produced by a single clock
  compare lexicographically exactly like the instants they denote, so the
  sort key `x.get('timestamp')` of `runs.json` is ordered like the
  natural.  `datetime.now()` becomes an explicit `now : Nat` parameter.
* Python float formatting (`f"{x:.1f}"`) is modelled by exact rational
  arithmetic rounded half-to-even to one decimal, which is the value the
  float format produces for the integral byte counts involved.
* File I/O never fails in the model; the `try/except` wrappers of the
  Python code are therefore not represented.
-/

namespace BorgDash

/-! ## Small string helpers -/

/-- Does the character list `needle` occur at the head of `hay`? -/
def startsWithL : List Char → List Char → Bool
  | [], _ => true
  | _ :: _, [] => false
  | a :: as, b :: bs => (a = b) && startsWithL as bs

/-- Does the character list `needle` occur contiguously anywhere in `hay`? -/
def containsL (needle : List Char) : List Char → Bool
  | [] => needle.isEmpty
  | b :: bs => startsWithL needle (b :: bs) || containsL needle bs

/-- `strContains needle hay` holds when `needle` is a contiguous substring
of `hay` (Python's `needle in hay`). -/
def strContains (needle hay : String) : Bool :=
  containsL needle.toList hay.toList

/-- Python's `"sep".join(parts)`. -/
def pyJoin (sep : String) : List String → String
  | [] => ""
  | [x] => x
  | x :: y :: xs => x ++ sep ++ pyJoin sep (y :: xs)

/-! ## One-decimal formatting (`f"{x:.1f}"`) over exact rationals -/

/-- Round `n / d` (with `0 < d`) to the nearest integer, ties to even:
the rounding used by Python's fixed-point float formatting. -/
def roundHalfEven (n d : Nat) : Nat :=
  let q := n / d
  let r := n % d
  if 2 * r < d then q
  else if d < 2 * r then q + 1
  else if q % 2 = 0 then q else q + 1

/-- The decimal string `f"{n/d:.1f}"` for a non-negative exact quotient. -/
def oneDecimalStr (n d : Nat) : String :=
  let t := roundHalfEven (n * 10) d
  toString (t / 10) ++ "." ++ toString (t % 10)

/-- `DataStorage._format_size`: bytes to human readable, one decimal. -/
def formatSizeLoop (b : Nat) : List String → Nat → String
  | [], pow => oneDecimalStr b pow ++ " PB"
  | u :: us, pow =>
    if b < 1024 * pow then oneDecimalStr b pow ++ " " ++ u
    else formatSizeLoop b us (1024 * pow)

/-- `DataStorage._format_size(size_bytes)`. -/
def formatSize (sizeBytes : Nat) : String :=
  if sizeBytes = 0 then "0 B"
  else formatSizeLoop sizeBytes ["B", "KB", "MB", "GB", "TB"] 1

/-- The compression-ratio string `f"{(1 - compressed/total) * 100:.1f}%"`
computed in `_update_summary_from_borg_info`, as an exact rational:
`(1 - c/t) * 100 = (t - c) * 100 / t`. -/
def compressionRatioStr (totalSize compressedSize : Nat) : String :=
  if compressedSize ≤ totalSize then
    oneDecimalStr ((totalSize - compressedSize) * 100) totalSize ++ "%"
  else
    "-" ++ oneDecimalStr ((compressedSize - totalSize) * 100) totalSize ++ "%"

/-! ## The derived summary record (`data/<job_id>/job_summary.json`) -/

/-- The JSON keys of `job_summary.json` that the storage layer reads or
writes; `none` models an absent key. -/
structure Summary where
  job_id : Option String
  status : Option String
  last_backup : Option Nat
  last_successful_backup : Option Nat
  archive_count : Option Nat
  full_size : Option String
  compressed_size : Option String
  deduplicated_size : Option String
  compression_ratio : Option String
  repository_path : Option String
  backup_type : Option String
  schedule_status : Option String
  last_updated : Option Nat
  deriving DecidableEq, Repr

/-- The empty JSON object `{}` used when `job_summary.json` is absent. -/
def emptySummary : Summary :=
  ⟨none, none, none, none, none, none, none, none, none, none, none, none, none⟩

/-! ## Repository info and archives -/

/-- Per-archive statistics (`archive['stats']` of borgmatic output). -/
structure ArchiveStats where
  original_size : Option Nat
  compressed_size : Option Nat
  deduplicated_size : Option Nat
  deriving DecidableEq, Repr

/-- One entry of `archives.json`; sizes are the integral byte counts the
backup tools emit. -/
structure ArchiveRec where
  name : String
  start : Option Nat
  time : Option Nat
  stats : Option ArchiveStats
  original_size : Option Nat
  compressed_size : Option Nat
  deduplicated_size : Option Nat
  deriving DecidableEq, Repr

/-- `repository_info['cache']['stats']`: the cache statistics keys read by
`_update_summary_from_borg_info` (absent keys default to `0`). -/
structure CacheStats where
  total_size : Option Nat
  total_csize : Option Nat
  unique_size : Option Nat
  deriving DecidableEq, Repr

/-- The `repository` sub-object of a borg/borgmatic payload. -/
structure BRepo where
  label : Option String
  location : Option String
  deriving DecidableEq, Repr

/-- A `repository_info` dict: the keys `_extract_repository_info` copies
(`repository`, `cache`, `encryption`, `security_dir`).  The outer `Option`
of `cache` is the `'cache'` key, the inner one the `'stats'` key (with
`none` also standing for an empty `stats` dict, which is falsy). -/
structure RepoInfoDict where
  repository : Option BRepo
  cache : Option (Option CacheStats)
  encryption : Bool
  security_dir : Bool
  deriving DecidableEq, Repr

/-- Python truthiness of a `repository_info` dict (`if repository_info:`). -/
def RepoInfoDict.isEmptyDict (r : RepoInfoDict) : Bool :=
  r.repository.isNone && r.cache.isNone && !r.encryption && !r.security_dir

/-- `repository_info.get('cache', {}).get('stats', {})` with falsiness of
the empty dict folded in. -/
def RepoInfoDict.stats (r : RepoInfoDict) : Option CacheStats :=
  r.cache.bind (fun c => c)

/-- `repository_info['repository']['location']` behind the two presence
checks of `_update_summary_from_borg_info`. -/
def RepoInfoDict.loc (r : RepoInfoDict) : Option String :=
  r.repository.bind BRepo.location

/-! ## Summary update paths -/

/-- `DataStorage._update_summary_from_borg_info(job_id, repository_info,
archive_list)` acting on the freshly read summary `s`.  Each field is the
value of that JSON key after the function's dict mutations:
`archive_count` is set to `len(archive_list)`; the sizes and the
compression ratio are set only when `cache.stats` is present and truthy
(ratio `"0%"` unless both total and compressed size are positive);
`repository_path` is set when `repository.location` is present;
`backup_type`, `status` and `schedule_status` are `setdefault`-ed;
`last_updated` is stamped with the current time. -/
def updateSummaryFromBorgInfo (jobId : String) (now : Nat) (ri : RepoInfoDict)
    (archiveList : List ArchiveRec) (s : Summary) : Summary :=
  let stats : Option CacheStats := ri.stats
  let location : Option String := ri.loc
  { job_id := some jobId
    status := some (s.status.getD "unknown")
    last_backup := s.last_backup
    last_successful_backup := s.last_successful_backup
    archive_count := some archiveList.length
    full_size :=
      match stats with
      | some st => some (formatSize (st.total_size.getD 0))
      | none => s.full_size
    compressed_size :=
      match stats with
      | some st => some (formatSize (st.total_csize.getD 0))
      | none => s.compressed_size
    deduplicated_size :=
      match stats with
      | some st => some (formatSize (st.unique_size.getD 0))
      | none => s.deduplicated_size
    compression_ratio :=
      match stats with
      | some st =>
        some (if 0 < st.total_size.getD 0 ∧ 0 < st.total_csize.getD 0 then
          compressionRatioStr (st.total_size.getD 0) (st.total_csize.getD 0)
        else "0%")
      | none => s.compression_ratio
    repository_path :=
      match location with
      | some loc => some loc
      | none => s.repository_path
    backup_type := some (s.backup_type.getD "borgmatic")
    schedule_status := some (s.schedule_status.getD "unknown")
    last_updated := some now }

/-- The `run_data` dict assembled by the `/api/push/status` route from a
`PushStatusRequest`: `status` is one of the four literals and `start_time`
a required datetime, so both are always present and truthy. -/
structure RunData where
  run_id : String
  status : String
  start_time : Nat
  end_time : Option Nat
  exit_code : Option Int
  error_message : Option String
  deriving DecidableEq, Repr

/-- `DataStorage._update_summary_from_run(job_id, run_data)` acting on the
freshly read summary `s`: stamps `job_id`/`last_updated`, sets
`last_backup` to the run's start time (a required field, hence always
truthy), sets `last_successful_backup` when the run status is `success`,
sets `status` when truthy, and `setdefault`s the archive statistics,
`repository_path` and `backup_type`. -/
def updateSummaryFromRun (jobId : String) (now : Nat) (rd : RunData)
    (s : Summary) : Summary :=
  { job_id := some jobId
    status := if rd.status ≠ "" then some rd.status else s.status
    last_backup := some rd.start_time
    last_successful_backup :=
      if rd.status = "success" then some rd.start_time else s.last_successful_backup
    archive_count := some (s.archive_count.getD 0)
    full_size := some (s.full_size.getD "0 B")
    compressed_size := some (s.compressed_size.getD "0 B")
    deduplicated_size := some (s.deduplicated_size.getD "0 B")
    compression_ratio := some (s.compression_ratio.getD "0%")
    repository_path := some (s.repository_path.getD "")
    backup_type := some (s.backup_type.getD "borgmatic")
    schedule_status := s.schedule_status
    last_updated := some now }

/-- Python truthiness of the optional `extra` dict of an event. -/
def extraTruthy : Option (List (String × String)) → Bool
  | none => false
  | some l => !l.isEmpty

/-- The event gate of `_update_summary_from_event`:
`event_type in ['success', 'failed'] and action == 'everything'`. -/
def eventGate (eventType : String) (extra : Option (List (String × String))) : Prop :=
  (eventType = "success" ∨ eventType = "failed") ∧
    (if extraTruthy extra then (extra.getD []).lookup "action" else none) = some "everything"

instance (eventType : String) (extra : Option (List (String × String))) :
    Decidable (eventGate eventType extra) := by
  unfold eventGate; infer_instance

/-- `DataStorage._update_summary_from_event(job_id, event_type, timestamp,
extra)` acting on the freshly read summary `s`.  `status`, `last_backup`
(and, for `success`, `last_successful_backup`) are written only behind the
gate; the archive statistics, `repository_path` and `backup_type` are
`setdefault`-ed; `status` has no `setdefault` in this path. -/
def updateSummaryFromEvent (jobId : String) (eventType : String) (timestamp : Nat)
    (extra : Option (List (String × String))) (now : Nat) (s : Summary) : Summary :=
  { job_id := some jobId
    status := if eventGate eventType extra then some eventType else s.status
    last_backup := if eventGate eventType extra then some timestamp else s.last_backup
    last_successful_backup :=
      if eventGate eventType extra ∧ eventType = "success" then some timestamp
      else s.last_successful_backup
    archive_count := some (s.archive_count.getD 0)
    full_size := some (s.full_size.getD "0 B")
    compressed_size := some (s.compressed_size.getD "0 B")
    deduplicated_size := some (s.deduplicated_size.getD "0 B")
    compression_ratio := some (s.compression_ratio.getD "0%")
    repository_path := some (s.repository_path.getD "")
    backup_type := some (s.backup_type.getD "borgmatic")
    schedule_status := s.schedule_status
    last_updated := some now }

/-! ## `ConfigValidator` (`backend/validation.py`)

Python's `re.match(r'^...$', s)` anchors at the start of `s`, and the
un-flagged `$` matches either at the end of the string or just before a
single final newline; the embeddings below reproduce that (a lone trailing
`'\n'` is tolerated).  The un-flagged `\d` matches every Unicode decimal
digit (category `Nd`), modelled by `isPyDigit` below; the job-id letter
class is spelled out as ASCII in the pattern itself. -/

/-- The zero code point of every decade of Unicode's `Nd` (decimal digit)
category, Unicode 14.0: each `Nd` character is `z + v` for exactly one
zero `z` in this list and its decimal value `v < 10`, and every `z + v`
with `v < 10` is `Nd`. -/
def ndDecadeZeros : List Nat :=
  [0x30, 0x660, 0x6F0, 0x7C0, 0x966, 0x9E6, 0xA66, 0xAE6, 0xB66, 0xBE6,
   0xC66, 0xCE6, 0xD66, 0xDE6, 0xE50, 0xED0, 0xF20, 0x1040, 0x1090, 0x17E0,
   0x1810, 0x1946, 0x19D0, 0x1A80, 0x1A90, 0x1B50, 0x1BB0, 0x1C40, 0x1C50,
   0xA620, 0xA8D0, 0xA900, 0xA9D0, 0xA9F0, 0xAA50, 0xABF0, 0xFF10, 0x104A0,
   0x10D30, 0x11066, 0x110F0, 0x11136, 0x111D0, 0x112F0, 0x11450, 0x114D0,
   0x11650, 0x116C0, 0x11730, 0x118E0, 0x11950, 0x11C50, 0x11D50, 0x11DA0,
   0x16A60, 0x16AC0, 0x16B50, 0x1D7CE, 0x1D7D8, 0x1D7E2, 0x1D7EC, 0x1D7F6,
   0x1E140, 0x1E2F0, 0x1E950, 0x1FBF0]

/-- The decimal value of a Unicode `Nd` digit, `none` for every other
character.  `isSome` of this is Python's un-flagged `\d` character class,
and the value is what `int()` contributes for the digit. -/
def pyDigitVal? (c : Char) : Option Nat :=
  ndDecadeZeros.findSome? (fun z =>
    if z ≤ c.toNat ∧ c.toNat ≤ z + 9 then some (c.toNat - z) else none)

/-- Membership in Python's `\d` class (any Unicode decimal digit). -/
def isPyDigit (c : Char) : Bool :=
  (pyDigitVal? c).isSome

/-- The character list a Python `...$` match must cover: the whole string,
or the whole string minus a single final newline. -/
def pyAnchoredCore (l : List Char) : List Char :=
  if l.getLast? = some '\n' then l.dropLast else l

/-- Python's `int()` applied to a `\d+` group: the fold of the digits'
decimal values (each Unicode digit contributes its `Nd` value). -/
def digitsToNat (ds : List Char) : Nat :=
  ds.foldl (fun n c => 10 * n + (pyDigitVal? c).getD 0) 0

/-- The match result of `MAX_AGE_PATTERN.match(max_age)`
(`re.match(r'^(\d+)([mhd])$', s)`): on success, the numeric value of the
digits group and the unit character. -/
def maxAgeMatch (s : String) : Option (Nat × Char) :=
  let core := pyAnchoredCore s.toList
  match core.getLast? with
  | none => none
  | some u =>
    if u = 'm' ∨ u = 'h' ∨ u = 'd' then
      let ds := core.dropLast
      if ds ≠ [] ∧ ds.all isPyDigit then some (digitsToNat ds, u) else none
    else none

/-- `ConfigValidator.parse_max_age_to_seconds(max_age)`; a Python
`ValueError` is an `Except.error` carrying the exception message. -/
def parseMaxAgeToSeconds (maxAge : String) : Except String Nat :=
  match maxAgeMatch maxAge with
  | none => .error ("Invalid max_age format: " ++ maxAge)
  | some (value, unit) =>
    if unit = 'm' then .ok (value * 60)
    else if unit = 'h' then .ok (value * 3600)
    else if unit = 'd' then .ok (value * 86400)
    else .error ("Invalid max_age unit: " ++ String.mk [unit])

/-- `ConfigValidator.validate_max_age(max_age)`. -/
def validateMaxAge (maxAge : String) : Bool :=
  if maxAge = "" then false else (maxAgeMatch maxAge).isSome

/-- A character allowed by `JOB_ID_PATTERN = re.compile(r'^[a-zA-Z0-9_-]+$')`. -/
def jobIdChar (c : Char) : Bool :=
  c.isAlphanum || c = '_' || c = '-'

/-- `ConfigValidator.validate_job_id(job_id)`. -/
def validateJobId (jobId : String) : Bool :=
  if jobId = "" then false
  else
    let core := pyAnchoredCore jobId.toList
    !core.isEmpty && core.all jobIdChar

/-- `ConfigValidator.validate_backup_type(backup_type)`. -/
def validateBackupType (backupType : String) : Bool :=
  backupType = "borg" || backupType = "borgmatic"

/-- `Char.toLower`-based model of `str.title()` applied after mapping the
separators `-` and `_` to spaces: `job_id.replace('-', ' ').replace('_', ' ').title()`. -/
def pyTitleWords (s : String) : String :=
  let repl := s.toList.map (fun c => if c = '-' ∨ c = '_' then ' ' else c)
  let step := fun (acc : List Char × Bool) (c : Char) =>
    if c.isAlpha then
      (acc.1 ++ [if acc.2 then c.toLower else c.toUpper], true)
    else (acc.1 ++ [c], false)
  String.mk (repl.foldl step ([], false)).1

/-- A job configuration file's contents: the TOML keys
`validate_and_fix_job_config` and the query layer read (`none` = key
absent).  Values are modelled with their expected types; TOML parsing and
type errors are outside the model. -/
structure JobConfigR where
  job_id : Option String
  backup_type : Option String
  max_age : Option String
  api_keys : Option (List String)
  display_name : Option String
  tags : Option (List String)
  description : Option String
  deriving DecidableEq, Repr

/-- `ConfigValidator.validate_and_fix_job_config(config_data, config_path)`.
`gen i` is the `i`-th freshly generated 32-character API key
(`generate_api_key` draws from a CSPRNG, modelled as an oracle parameter).
The write-back of a modified config to its source path is file I/O outside
the model; the returned pair is `(fixed_config, was_modified)`, and a
raised `ConfigValidationError` is an `Except.error` with its message. -/
def validateAndFixJobConfig (gen : Nat → String) (cfg : JobConfigR) :
    Except String (JobConfigR × Bool) :=
  let jobId := cfg.job_id.getD ""
  if ¬ validateJobId jobId then
    .error ("Invalid job_id '" ++ jobId ++ "'. Must contain only a-zA-Z, 0-9, _, -")
  else
    let modified := false
    let backupType := cfg.backup_type.getD "borgmatic"
    let (cfg, modified) :=
      if ¬ validateBackupType backupType then
        ({ cfg with backup_type := some "borgmatic" }, true)
      else (cfg, modified)
    let maxAge := cfg.max_age.getD "24h"
    let (cfg, modified) :=
      if ¬ validateMaxAge maxAge then ({ cfg with max_age := some "24h" }, true)
      else (cfg, modified)
    let apiKeys := cfg.api_keys.getD []
    let (cfg, modified) :=
      if apiKeys.isEmpty then ({ cfg with api_keys := some [gen 0] }, true)
      else
        let validKeys :=
          apiKeys.enum.map (fun p => if 16 ≤ p.2.length then p.2 else gen p.1)
        let anyReplaced := apiKeys.any (fun k => k.length < 16)
        ({ cfg with api_keys := some validKeys }, modified || anyReplaced)
    let (cfg, modified) :=
      if cfg.display_name.isNone then
        ({ cfg with display_name := some (pyTitleWords jobId) }, true)
      else (cfg, modified)
    let (cfg, modified) :=
      if cfg.tags.isNone then ({ cfg with tags := some [] }, true)
      else (cfg, modified)
    .ok (cfg, modified)

/-- The loop state of `validate_all_configs`: the accumulated
`valid_configs` (an insertion-ordered dict), `seen_job_ids`, and `errors`. -/
def vacLoop (gen : String → Nat → String) :
    List (String × JobConfigR) →
    List (String × JobConfigR) × List String × List String →
    List (String × JobConfigR) × List String × List String
  | [], st => st
  | (name, cfg) :: rest, (configs, seen, errors) =>
    match validateAndFixJobConfig (gen name) cfg with
    | .error e =>
      vacLoop gen rest (configs, seen, errors ++ ["Error in " ++ name ++ ": " ++ e])
    | .ok (fixed, _wasModified) =>
      let jobId := fixed.job_id.getD ""
      if jobId ∈ seen then
        vacLoop gen rest
          (configs, seen, errors ++ ["Duplicate job_id '" ++ jobId ++ "' found in " ++ name])
      else vacLoop gen rest (configs ++ [(jobId, fixed)], seen ++ [jobId], errors)

/-- `ConfigValidator.validate_all_configs(config_dir)` over the parsed
`*.toml` files (filename, contents) found in the directory, in directory
order.  A raised `ConfigValidationFailed` is an `Except.error` carrying
the full collected message. -/
def validateAllConfigs (gen : String → Nat → String)
    (files : List (String × JobConfigR)) : Except String (List (String × JobConfigR)) :=
  let st := vacLoop gen files ([], [], [])
  if st.2.2 ≠ [] then
    .error ("Configuration validation failed:\n" ++ pyJoin "\n" st.2.2)
  else .ok st.1

/-- `config.get_all_job_configs`: validation failure degrades to an empty
mapping. -/
def getAllJobConfigs (gen : String → Nat → String)
    (files : List (String × JobConfigR)) : List (String × JobConfigR) :=
  match validateAllConfigs gen files with
  | .ok configs => configs
  | .error _ => []

/-! ## The per-job runs list (`data/<job_id>/runs.json`) -/

/-- One entry of the `runs` array of `runs.json`, as built by
`_update_runs_from_run`: the `duration` key is present only when both
timestamps were supplied. -/
structure RunEntry where
  id : String
  status : String
  timestamp : Nat
  end_timestamp : Option Nat
  exit_code : Option Int
  error_message : Option String
  duration : Option String
  deriving DecidableEq, Repr

/-- The `run_entry` dict of `_update_runs_from_run`:
`duration = f"{int((end - start).total_seconds())}s"` when an end time
exists. -/
def mkRunEntry (rd : RunData) : RunEntry :=
  { id := rd.run_id
    status := rd.status
    timestamp := rd.start_time
    end_timestamp := rd.end_time
    exit_code := rd.exit_code
    error_message := rd.error_message
    duration := rd.end_time.map (fun e => toString ((e : Int) - (rd.start_time : Int)) ++ "s") }

/-- Replace the first list element whose `id` matches `e.id` (the scan-and-
`break` loop of `_update_runs_from_run`); `none` when no element matches. -/
def replaceFirstById (e : RunEntry) : List RunEntry → Option (List RunEntry)
  | [] => none
  | x :: xs =>
    if x.id = e.id then some (e :: xs)
    else (replaceFirstById e xs).map (x :: ·)

/-- The update-or-append step of `_update_runs_from_run`. -/
def upsertRun (e : RunEntry) (l : List RunEntry) : List RunEntry :=
  match replaceFirstById e l with
  | some replaced => replaced
  | none => l ++ [e]

/-- The descending-timestamp ordering used by
`runs_list.sort(key=lambda x: x.get('timestamp', ''), reverse=True)`:
`a` may precede `b` iff `b`'s timestamp is not larger.  (ISO strings of
one clock are ordered like their instants; reverse-sorting with a key in
Python is stable, as is `List.insertionSort`.) -/
def runGe (a b : RunEntry) : Prop :=
  b.timestamp ≤ a.timestamp

instance : DecidableRel runGe := fun a b => Nat.decLe b.timestamp a.timestamp

instance : IsTotal RunEntry runGe :=
  ⟨fun a b => (Nat.le_total b.timestamp a.timestamp).elim Or.inl Or.inr⟩

instance : IsTrans RunEntry runGe :=
  ⟨fun _ _ _ hab hbc => Nat.le_trans hbc hab⟩

/-- `DataStorage._update_runs_from_run(job_id, run_data)` acting on the
runs list read from `runs.json`: upsert by `run_id`, stable sort by start
timestamp descending, keep the first 100. -/
def updateRunsFromRun (rd : RunData) (runs : List RunEntry) : List RunEntry :=
  ((upsertRun (mkRunEntry rd) runs).insertionSort runGe).take 100

/-- A sequence of `/api/push/status` calls folded over an initially absent
`runs.json`. -/
def storeRunsFold (rds : List RunData) : List RunEntry :=
  rds.foldl (fun acc rd => updateRunsFromRun rd acc) []

/-! ## `store_borg_info` (`/api/push/borg/info`) -/

/-- The per-job files `store_borg_info` writes: `repository_info.json`,
`archives.json` and `job_summary.json` (each `none` until first written). -/
structure BorgStoreState where
  repositoryInfoFile : Option RepoInfoDict
  archivesFile : Option (List ArchiveRec)
  summaryFile : Option Summary
  deriving DecidableEq, Repr

/-- `DataStorage.store_borg_info(job_id, repository_info, archive_list)`:
replaces the repository-info and archive files wholesale and applies
`_update_summary_from_borg_info` to the freshly read summary. -/
def storeBorgInfo (jobId : String) (now : Nat) (ri : RepoInfoDict)
    (archiveList : List ArchiveRec) (st : BorgStoreState) : BorgStoreState :=
  { repositoryInfoFile := some ri
    archivesFile := some archiveList
    summaryFile :=
      some (updateSummaryFromBorgInfo jobId now ri archiveList
        (st.summaryFile.getD emptySummary)) }

/-! ## Borgmatic payloads, label filtering and the push routes -/

/-- One repository payload of a borgmatic `info`/`rinfo` JSON document,
restricted to the keys the storage layer inspects, plus flags for the
presence of the remaining copied keys (`encryption`, `security_dir`) and
of any further keys (for dict truthiness). -/
structure BPayload where
  repository : Option BRepo
  archives : Option (List ArchiveRec)
  cache : Option (Option CacheStats)
  encryption : Bool
  security_dir : Bool
  otherKeys : Bool
  deriving DecidableEq, Repr

/-- The empty dict `{}` used as fallback payload. -/
def emptyBPayload : BPayload := ⟨none, none, none, false, false, false⟩

/-- Python truthiness of a payload dict (`if not filtered:`). -/
def BPayload.isEmptyDict (p : BPayload) : Bool :=
  p.repository.isNone && p.archives.isNone && p.cache.isNone &&
    !p.encryption && !p.security_dir && !p.otherKeys

/-- `DataStorage._extract_repository_info(data)`: copy the `repository`,
`cache`, `encryption` and `security_dir` keys when present. -/
def extractRepositoryInfo (p : BPayload) : RepoInfoDict :=
  { repository := p.repository
    cache := p.cache
    encryption := p.encryption
    security_dir := p.security_dir }

/-- `DataStorage.filter_borgmatic_data(data, repository_label)` for a list
of repository payloads and a truthy label (the only way the push routes
call it): the first payload whose `repository.label` equals the label,
else the first payload, else `{}`. -/
def filterBorgmaticList (data : List BPayload) (label : String) : BPayload :=
  match data.find? (fun p => (p.repository.bind BRepo.label) = some label) with
  | some p => p
  | none => data.headD emptyBPayload

/-- Python truthiness of the optional `repository_label` request field. -/
def labelTruthy : Option String → Bool
  | none => false
  | some s => s ≠ ""

/-- An error response of the push routes. -/
inductive ApiError where
  | notFound (detail : String)
  | badRequest (detail : String)
  deriving DecidableEq, Repr

/-- The label-filtering logic shared verbatim by `push_borgmatic_info` and
`push_borgmatic_rinfo` in `main.py` for a list-shaped document: more than
one repository without a label is a 400; with a truthy label the filtered
payload is used, a falsy filtered payload is a 400 naming the label;
otherwise the first payload (or `{}`).  On success, the payload handed to
the storage layer. -/
def routeFilterBorgmatic (data : List BPayload) (repositoryLabel : Option String) :
    Except ApiError BPayload :=
  if 1 < data.length ∧ labelTruthy repositoryLabel = false then
    .error (.badRequest
      "Multiple repositories found in borgmatic data. Please specify repository_label to select which one to use.")
  else if labelTruthy repositoryLabel then
    let filtered := filterBorgmaticList data (repositoryLabel.getD "")
    if filtered.isEmptyDict then
      .error (.badRequest
        ("Repository with label '" ++ repositoryLabel.getD "" ++ "' not found in borgmatic data"))
    else .ok filtered
  else .ok (data.headD emptyBPayload)

/-- The files written by a borgmatic store call (`none` = file untouched)
and the arguments of the `_update_summary_from_borg_info` call it makes,
if any. -/
structure BorgmaticStoreEffect where
  repoFile : Option RepoInfoDict
  archivesFileW : Option (List ArchiveRec)
  summaryUpdate : Option (RepoInfoDict × List ArchiveRec)
  deriving DecidableEq, Repr

/-- `DataStorage.store_borgmatic_info(job_id, info_data)` on the dict-shaped
payload the route hands it: extract the repository info and archives, write
each file only when its content is truthy, and update the summary with the
real repository info when present, else with a dummy
`{'repository': {'location': repository_path}}`. -/
def storeBorgmaticInfo (p : BPayload) : BorgmaticStoreEffect :=
  let repositoryInfo := extractRepositoryInfo p
  let repositoryPath := (p.repository.bind BRepo.location).getD ""
  let archives := p.archives.getD []
  { repoFile := if repositoryInfo.isEmptyDict then none else some repositoryInfo
    archivesFileW := if archives.isEmpty then none else some archives
    summaryUpdate :=
      if ¬ archives.isEmpty ∧ ¬ repositoryInfo.isEmptyDict then
        some (repositoryInfo, archives)
      else if ¬ archives.isEmpty then
        some (⟨some ⟨none, some repositoryPath⟩, none, false, false⟩, archives)
      else none }

/-- `DataStorage.store_borgmatic_rinfo(job_id, rinfo_data)` on the
dict-shaped payload the route hands it (no dummy fallback here). -/
def storeBorgmaticRinfo (p : BPayload) : BorgmaticStoreEffect :=
  let repositoryInfo := extractRepositoryInfo p
  let archives := p.archives.getD []
  { repoFile := if repositoryInfo.isEmptyDict then none else some repositoryInfo
    archivesFileW := if archives.isEmpty then none else some archives
    summaryUpdate :=
      if ¬ archives.isEmpty ∧ ¬ repositoryInfo.isEmptyDict then
        some (repositoryInfo, archives)
      else none }

/-- The `/api/push/borgmatic/info` route on a list-shaped document:
filtering followed by the store call. -/
def pushBorgmaticInfo (data : List BPayload) (repositoryLabel : Option String) :
    Except ApiError BorgmaticStoreEffect :=
  (routeFilterBorgmatic data repositoryLabel).map storeBorgmaticInfo

/-- The `/api/push/borgmatic/rinfo` route on a list-shaped document. -/
def pushBorgmaticRinfo (data : List BPayload) (repositoryLabel : Option String) :
    Except ApiError BorgmaticStoreEffect :=
  (routeFilterBorgmatic data repositoryLabel).map storeBorgmaticRinfo

/-! ## Query layer (`get_all_jobs`, `get_job_details`, `get_job_archives`,
`get_job_runs` and their routes) -/

/-- `f"{n} {unit}{'s' if n != 1 else ''} ago"`. -/
def pluralAgo (n : Nat) (unit : String) : String :=
  toString n ++ " " ++ unit ++ (if n ≠ 1 then "s" else "") ++ " ago"

/-- `DataStorage._calculate_relative_time(timestamp)` against the clock
`now`. -/
def calculateRelativeTime (now : Nat) : Option Nat → Option String
  | none => none
  | some t =>
    if now < t then some "in the future"
    else
      let ts := now - t
      if ts < 60 then some "just now"
      else if ts < 3600 then some (pluralAgo (ts / 60) "minute")
      else if ts < 86400 then some (pluralAgo (ts / 3600) "hour")
      else if ts < 604800 then some (pluralAgo (ts / 86400) "day")
      else if ts < 2592000 then some (pluralAgo (ts / 604800) "week")
      else if ts < 31536000 then some (pluralAgo (ts / 2592000) "month")
      else some (pluralAgo (ts / 31536000) "year")

/-- `ConfigValidator.is_backup_overdue(last_backup, max_age)`: a max-age
parse failure means "not overdue". -/
def isBackupOverdue (now lastBackup : Nat) (maxAge : String) : Bool :=
  match parseMaxAgeToSeconds maxAge with
  | .ok maxAgeSeconds => decide ((lastBackup : Int) < (now : Int) - (maxAgeSeconds : Int))
  | .error _ => false

/-- `DataStorage._calculate_schedule_status(last_backup_str, max_age)`. -/
def calculateScheduleStatus (now : Nat) (lastBackup : Option Nat) (maxAge : String) : String :=
  match lastBackup with
  | none => "unknown"
  | some t => if isBackupOverdue now t maxAge then "overdue" else "on-time"

/-- `DataStorage._get_latest_archive_date(job_id)`: the maximum of the
archives' `start`-or-`time` values, `none` when the file or all dates are
absent. -/
def getLatestArchiveDate (archivesFile : Option (List ArchiveRec)) : Option Nat :=
  match archivesFile with
  | none => none
  | some archivesData =>
    archivesData.foldl
      (fun latest a =>
        match a.start <|> a.time with
        | none => latest
        | some d =>
          match latest with
          | none => some d
          | some m => if m < d then some d else some m)
      none

/-- The `stats` sub-object of `JobSummary`/`Job` API responses
(the API field `compressionRatio` is spelled `compression_ratio` here). -/
structure JobStatsView where
  archiveCount : Nat
  fullSize : String
  compressedSize : String
  deduplicatedSize : String
  compression_ratio : String
  deriving DecidableEq, Repr

/-- A `JobSummary` response row of `GET /api/jobs`. -/
structure JobSummaryView where
  jobId : String
  name : String
  status : String
  scheduleStatus : String
  lastBackup : Option Nat
  lastBackupRelative : Option String
  lastSuccessfulBackup : Option Nat
  lastSuccessfulBackupRelative : Option String
  tags : List String
  stats : JobStatsView
  deriving DecidableEq, Repr

/-- The stored data files of one job that the read side consults. -/
structure JobStore where
  summary : Option Summary
  archives : Option (List ArchiveRec)

/-- The per-job body shared by `get_all_jobs` and `get_job_details`:
load `job_summary.json` when present (else `{}`), compute the schedule
status from the latest archive date falling back to the cached
last-successful/last backup, and read every display field with its
default. -/
def mkJobSummaryView (now : Nat) (jobId : String) (config : JobConfigR)
    (summaryFile : Option Summary) (archivesFile : Option (List ArchiveRec)) :
    JobSummaryView :=
  let cacheData := summaryFile.getD emptySummary
  let maxAge := config.max_age.getD "24h"
  let latestArchiveDate := getLatestArchiveDate archivesFile
  let backupTimeForSchedule :=
    latestArchiveDate <|> cacheData.last_successful_backup <|> cacheData.last_backup
  let lastBackup := latestArchiveDate <|> cacheData.last_backup
  { jobId := jobId
    name := config.display_name.getD jobId
    status := cacheData.status.getD "no-data"
    scheduleStatus := calculateScheduleStatus now backupTimeForSchedule maxAge
    lastBackup := lastBackup
    lastBackupRelative := calculateRelativeTime now lastBackup
    lastSuccessfulBackup := cacheData.last_successful_backup
    lastSuccessfulBackupRelative := calculateRelativeTime now cacheData.last_successful_backup
    tags := config.tags.getD []
    stats :=
      { archiveCount := cacheData.archive_count.getD 0
        fullSize := cacheData.full_size.getD "0 B"
        compressedSize := cacheData.compressed_size.getD "0 B"
        deduplicatedSize := cacheData.deduplicated_size.getD "0 B"
        compression_ratio := cacheData.compression_ratio.getD "0%" } }

/-- The ascending display-name ordering of `sorted(jobs, key=lambda x: x.name)`. -/
def nameLe (a b : JobSummaryView) : Prop := a.name ≤ b.name

instance : DecidableRel nameLe := fun a b => by unfold nameLe; infer_instance

/-- `DataStorage.get_all_jobs()`: one row per configured job regardless of
stored data, sorted by display name. -/
def getAllJobs (now : Nat) (configs : List (String × JobConfigR))
    (store : String → JobStore) : List JobSummaryView :=
  (configs.map (fun p =>
    mkJobSummaryView now p.1 p.2 (store p.1).summary (store p.1).archives)).insertionSort
    nameLe

/-- A `Job` response of `GET /api/jobs/{job_id}`. -/
structure JobView where
  summaryRow : JobSummaryView
  description : Option String
  backupType : String
  maxAge : String
  config : JobConfigR
  deriving DecidableEq, Repr

/-- `DataStorage.get_job_details(job_id)`: `none` only when no
configuration exists for the id. -/
def getJobDetails (now : Nat) (configs : List (String × JobConfigR))
    (store : String → JobStore) (jobId : String) : Option JobView :=
  match configs.lookup jobId with
  | none => none
  | some config =>
    some
      { summaryRow :=
          mkJobSummaryView now jobId config (store jobId).summary (store jobId).archives
        description := config.description
        backupType := config.backup_type.getD "borgmatic"
        maxAge := config.max_age.getD "24h"
        config := config }

/-! ### `get_job_archives` and its route -/

/-- The sort key of `get_job_archives` for the size columns: prefer the
`stats` sub-object when the key is present, else the direct field, else 0. -/
def archiveSizeKey (sortBy : String) (a : ArchiveRec) : Nat :=
  match a.stats with
  | some st =>
    if sortBy = "originalSize" then st.original_size.getD 0
    else if sortBy = "compressedSize" then st.compressed_size.getD 0
    else st.deduplicated_size.getD 0
  | none =>
    if sortBy = "originalSize" then a.original_size.getD 0
    else if sortBy = "compressedSize" then a.compressed_size.getD 0
    else a.deduplicated_size.getD 0

/-- Key comparison of `get_job_archives`' `sort_key` (missing dates sort
as `datetime.min`; names compare case-insensitively; an unknown column
compares everything equal, leaving the list unchanged by a stable sort). -/
def archiveKeyLe (sortBy : String) (a b : ArchiveRec) : Prop :=
  if sortBy = "date" then a.start.getD 0 ≤ b.start.getD 0
  else if sortBy = "name" then a.name.toLower ≤ b.name.toLower
  else if sortBy = "originalSize" ∨ sortBy = "compressedSize" ∨ sortBy = "deduplicatedSize" then
    archiveSizeKey sortBy a ≤ archiveSizeKey sortBy b
  else True

instance (sortBy : String) : DecidableRel (archiveKeyLe sortBy) := fun a b => by
  unfold archiveKeyLe; infer_instance

/-- The stable ordering realised by
`archives_data.sort(key=sort_key, reverse=(sort_order == "desc"))`. -/
def archiveSortRel (sortBy sortOrder : String) (a b : ArchiveRec) : Prop :=
  if sortOrder = "desc" then archiveKeyLe sortBy b a else archiveKeyLe sortBy a b

instance (sortBy sortOrder : String) : DecidableRel (archiveSortRel sortBy sortOrder) :=
  fun a b => by unfold archiveSortRel; split <;> infer_instance

/-- An `Archive` item of the paginated archives response. -/
structure ArchiveView where
  name : String
  createdAt : Nat
  originalSize : String
  compressedSize : String
  deduplicatedSize : String
  deriving DecidableEq, Repr

/-- The per-archive display formatting of `get_job_archives` (sizes from
`stats` when present, else from the direct fields, else `"n/a"`;
a missing `start` renders as the current time). -/
def formatArchiveView (now : Nat) (a : ArchiveRec) : ArchiveView :=
  let sizes :=
    match a.stats with
    | some st =>
      ((st.original_size.map formatSize).getD "n/a",
        (st.compressed_size.map formatSize).getD "n/a",
        (st.deduplicated_size.map formatSize).getD "n/a")
    | none =>
      if a.original_size.isSome ∨ a.compressed_size.isSome ∨ a.deduplicated_size.isSome then
        ((a.original_size.map formatSize).getD "n/a",
          (a.compressed_size.map formatSize).getD "n/a",
          (a.deduplicated_size.map formatSize).getD "n/a")
      else ("n/a", "n/a", "n/a")
  { name := a.name
    createdAt := a.start.getD now
    originalSize := sizes.1
    compressedSize := sizes.2.1
    deduplicatedSize := sizes.2.2 }

/-- A paginated archives response. -/
structure ArchivesPage where
  items : List ArchiveView
  total : Nat
  hasMore : Bool
  nextOffset : Option Nat
  deriving DecidableEq, Repr

/-- `DataStorage.get_job_archives(job_id, offset, limit, sort_by,
sort_order)`: `none` when `archives.json` does not exist, otherwise sort,
then paginate, then format. -/
def getJobArchivesStorage (now : Nat) (archivesFile : Option (List ArchiveRec))
    (offset limit : Nat) (sortBy sortOrder : String) : Option ArchivesPage :=
  match archivesFile with
  | none => none
  | some archivesData =>
    let sorted := archivesData.insertionSort (archiveSortRel sortBy sortOrder)
    let total := sorted.length
    let paginated := (sorted.drop offset).take limit
    some
      { items := paginated.map (formatArchiveView now)
        total := total
        hasMore := decide (offset + limit < total)
        nextOffset := if offset + limit < total then some (offset + limit) else none }

/-- The `GET /api/jobs/{job_id}/archives` route: a falsy storage result
(only `None` can be falsy here) becomes a 404. -/
def apiGetJobArchives (now : Nat) (archivesFile : Option (List ArchiveRec))
    (offset limit : Nat) (sortBy sortOrder : String) : Except ApiError ArchivesPage :=
  match getJobArchivesStorage now archivesFile offset limit sortBy sortOrder with
  | none => .error (.notFound "Job not found")
  | some result => .ok result

/-! ### `get_job_runs` and its route -/

/-- A `BackupRun` item of the runs response. -/
structure RunView where
  id : String
  status : String
  timestamp : Nat
  timestampRelative : Option String
  duration : Option String
  endTimestamp : Option Nat
  deriving DecidableEq, Repr

/-- `DataStorage.get_job_runs(job_id, limit)`: an absent `runs.json` is an
empty list (never an error); otherwise sort by timestamp descending, take
`limit`, format. -/
def getJobRuns (now : Nat) (runsFile : Option (List RunEntry)) (limit : Nat) :
    List RunView :=
  match runsFile with
  | none => []
  | some runsList =>
    ((runsList.insertionSort runGe).take limit).map (fun r =>
      { id := r.id
        status := r.status
        timestamp := r.timestamp
        timestampRelative := calculateRelativeTime now (some r.timestamp)
        duration := r.duration
        endTimestamp := r.end_timestamp })

/-! ## Helper lemmas -/

/-- Re-applying `_update_summary_from_borg_info` with the same arguments
only refreshes `last_updated`. -/
theorem updateSummaryFromBorgInfo_idem (jobId : String) (n1 n2 : Nat)
    (ri : RepoInfoDict) (al : List ArchiveRec) (s : Summary) :
    updateSummaryFromBorgInfo jobId n2 ri al (updateSummaryFromBorgInfo jobId n1 ri al s) =
      { updateSummaryFromBorgInfo jobId n1 ri al s with last_updated := some n2 } := by
  unfold updateSummaryFromBorgInfo
  cases hst : ri.stats <;> cases hloc : ri.loc <;> simp [hst, hloc]

/-! ## Claim theorems -/

/-- Claim C1: a `store_event` call moves the derived summary's `status`,
`last_backup` (and `last_successful_backup` on success) exactly when the
event type is `success` or `failed` and `extra.action` is `"everything"`;
any other type or action leaves those three fields unchanged. -/
theorem event_gating (jobId eventType : String) (timestamp : Nat)
    (extra : Option (List (String × String))) (now : Nat) (s : Summary) :
    (eventGate eventType extra →
      (updateSummaryFromEvent jobId eventType timestamp extra now s).status = some eventType ∧
      (updateSummaryFromEvent jobId eventType timestamp extra now s).last_backup =
        some timestamp ∧
      (eventType = "success" →
        (updateSummaryFromEvent jobId eventType timestamp extra now
          s).last_successful_backup = some timestamp) ∧
      (eventType ≠ "success" →
        (updateSummaryFromEvent jobId eventType timestamp extra now
          s).last_successful_backup = s.last_successful_backup)) ∧
    (¬ eventGate eventType extra →
      (updateSummaryFromEvent jobId eventType timestamp extra now s).status = s.status ∧
      (updateSummaryFromEvent jobId eventType timestamp extra now s).last_backup =
        s.last_backup ∧
      (updateSummaryFromEvent jobId eventType timestamp extra now
        s).last_successful_backup = s.last_successful_backup) := by
  constructor
  · intro h
    refine ⟨?_, ?_, fun hs => ?_, fun hs => ?_⟩
    · simp [updateSummaryFromEvent, if_pos h]
    · simp [updateSummaryFromEvent, if_pos h]
    · simp only [updateSummaryFromEvent]
      rw [if_pos ⟨h, hs⟩]
    · simp only [updateSummaryFromEvent]
      rw [if_neg (fun hc => hs hc.2)]
  · intro h
    refine ⟨?_, ?_, ?_⟩
    · simp [updateSummaryFromEvent, if_neg h]
    · simp [updateSummaryFromEvent, if_neg h]
    · simp only [updateSummaryFromEvent]
      rw [if_neg (fun hc => h hc.1)]

/-- Witness for C1: a `success` event with `action = "everything"` flips
the status, while a `success` event with `action = "step-a"` leaves the
(empty) summary's status untouched. -/
theorem event_gating_witness :
    (updateSummaryFromEvent "job1" "success" 50 (some [("action", "everything")]) 60
      emptySummary).status = some "success" ∧
    (updateSummaryFromEvent "job1" "success" 50 (some [("action", "step-a")]) 60
      emptySummary).status = emptySummary.status :=
  ⟨((event_gating "job1" "success" 50 (some [("action", "everything")]) 60
      emptySummary).1 (by decide)).1,
    ((event_gating "job1" "success" 50 (some [("action", "step-a")]) 60
      emptySummary).2 (by decide)).1⟩

/-- Claim C8: `store_borg_info` is idempotent — repeating a call with the
identical `(repository_info, archive_list)` leaves every file identical,
the summary differing only in `last_updated`. -/
theorem storeBorgInfo_idempotent (jobId : String) (n1 n2 : Nat) (ri : RepoInfoDict)
    (archiveList : List ArchiveRec) (st : BorgStoreState) :
    storeBorgInfo jobId n2 ri archiveList (storeBorgInfo jobId n1 ri archiveList st) =
      { storeBorgInfo jobId n1 ri archiveList st with
        summaryFile := (storeBorgInfo jobId n1 ri archiveList st).summaryFile.map
          (fun s => { s with last_updated := some n2 }) } := by
  simp [storeBorgInfo, updateSummaryFromBorgInfo_idem]

/-- Claim C3, counterexample: with cache statistics `total_size = 1000`,
`total_csize = 0`, the code stores `"0%"`, while the claimed formula
`(1 - compressed/total) * 100` evaluates to `"100.0%"`. -/
theorem compression_ratio_counterexample :
    (updateSummaryFromBorgInfo "job1" 0
        ⟨none, some (some ⟨some 1000, some 0, some 0⟩), false, false⟩ []
        emptySummary).compression_ratio = some "0%" ∧
      compressionRatioStr 1000 0 = "100.0%" ∧ ("0%" : String) ≠ "100.0%" := by
  refine ⟨rfl, ?_, by decide⟩
  rfl

/-- Claim C3 as amended: when cache statistics are present, the stored
ratio is the one-decimal `(1 - compressed/total) * 100` only when both the
total and the compressed size are positive, and `"0%"` when either is
zero; when the statistics are absent the ratio is left unchanged. -/
theorem compression_ratio_amended (jobId : String) (now : Nat) (ri : RepoInfoDict)
    (al : List ArchiveRec) (s : Summary) :
    (∀ st : CacheStats, ri.stats = some st →
      (0 < st.total_size.getD 0 ∧ 0 < st.total_csize.getD 0 →
        (updateSummaryFromBorgInfo jobId now ri al s).compression_ratio =
          some (compressionRatioStr (st.total_size.getD 0) (st.total_csize.getD 0))) ∧
      (¬ (0 < st.total_size.getD 0 ∧ 0 < st.total_csize.getD 0) →
        (updateSummaryFromBorgInfo jobId now ri al s).compression_ratio = some "0%")) ∧
    (ri.stats = none →
      (updateSummaryFromBorgInfo jobId now ri al s).compression_ratio =
        s.compression_ratio) := by
  constructor
  · intro st hst
    constructor
    · intro hpos
      simp [updateSummaryFromBorgInfo, hst, if_pos hpos]
    · intro hneg
      simp [updateSummaryFromBorgInfo, hst, if_neg hneg]
  · intro hnone
    simp [updateSummaryFromBorgInfo, hnone]

/-- Witness for C3 (amended): stats `total = 4`, `compressed = 1` store
the formula value `75.0%`; stats `total = 1000`, `compressed = 0` store
`"0%"`. -/
theorem compression_ratio_amended_witness :
    (updateSummaryFromBorgInfo "job1" 0
        ⟨none, some (some ⟨some 4, some 1, some 1⟩), false, false⟩ []
        emptySummary).compression_ratio = some (compressionRatioStr 4 1) ∧
    (updateSummaryFromBorgInfo "job1" 0
        ⟨none, some (some ⟨some 1000, some 0, some 0⟩), false, false⟩ []
        emptySummary).compression_ratio = some "0%" :=
  ⟨((compression_ratio_amended "job1" 0
      ⟨none, some (some ⟨some 4, some 1, some 1⟩), false, false⟩ [] emptySummary).1
      ⟨some 4, some 1, some 1⟩ rfl).1 (by decide),
    ((compression_ratio_amended "job1" 0
      ⟨none, some (some ⟨some 1000, some 0, some 0⟩), false, false⟩ [] emptySummary).1
      ⟨some 1000, some 0, some 0⟩ rfl).2 (by decide)⟩

/-- Claim C2, counterexample: after `storeRun` of a *failed* run on a
fresh job followed by `storeArchiveSet`, the run-derived field
`last_successful_backup` is absent from the summary (the claim asserts it
is present). -/
theorem field_preservation_counterexample :
    (updateSummaryFromBorgInfo "job1" 2
        ⟨some ⟨none, some "/repo"⟩, some (some ⟨some 10, some 5, some 3⟩), false, false⟩ []
        (updateSummaryFromRun "job1" 1 ⟨"r1", "failed", 100, none, none, none⟩
          emptySummary)).last_successful_backup = none := by
  rfl

/-- Claim C2 as amended: in either order, the run-derived `status` and
`last_backup` carry the run's values, `last_successful_backup` carries the
run's start time exactly for a `success` run (otherwise it is left as it
was — it has no default), and the archive-derived fields are all present,
holding the borg values when cache statistics are present and the
defaults otherwise; neither path overwrites the other's fields. -/
theorem field_preservation_amended (jobId : String) (n1 n2 : Nat) (rd : RunData)
    (ri : RepoInfoDict) (al : List ArchiveRec) (s : Summary) (hst : rd.status ≠ "") :
    ((updateSummaryFromBorgInfo jobId n2 ri al
        (updateSummaryFromRun jobId n1 rd s)).status = some rd.status ∧
      (updateSummaryFromBorgInfo jobId n2 ri al
        (updateSummaryFromRun jobId n1 rd s)).last_backup = some rd.start_time ∧
      (rd.status = "success" →
        (updateSummaryFromBorgInfo jobId n2 ri al
          (updateSummaryFromRun jobId n1 rd s)).last_successful_backup =
            some rd.start_time) ∧
      (rd.status ≠ "success" →
        (updateSummaryFromBorgInfo jobId n2 ri al
          (updateSummaryFromRun jobId n1 rd s)).last_successful_backup =
            s.last_successful_backup) ∧
      (updateSummaryFromBorgInfo jobId n2 ri al
        (updateSummaryFromRun jobId n1 rd s)).archive_count = some al.length ∧
      (updateSummaryFromBorgInfo jobId n2 ri al
        (updateSummaryFromRun jobId n1 rd s)).full_size.isSome ∧
      (updateSummaryFromBorgInfo jobId n2 ri al
        (updateSummaryFromRun jobId n1 rd s)).compressed_size.isSome ∧
      (updateSummaryFromBorgInfo jobId n2 ri al
        (updateSummaryFromRun jobId n1 rd s)).deduplicated_size.isSome ∧
      (updateSummaryFromBorgInfo jobId n2 ri al
        (updateSummaryFromRun jobId n1 rd s)).compression_ratio.isSome) ∧
    ((updateSummaryFromRun jobId n2 rd
        (updateSummaryFromBorgInfo jobId n1 ri al s)).status = some rd.status ∧
      (updateSummaryFromRun jobId n2 rd
        (updateSummaryFromBorgInfo jobId n1 ri al s)).last_backup = some rd.start_time ∧
      (rd.status = "success" →
        (updateSummaryFromRun jobId n2 rd
          (updateSummaryFromBorgInfo jobId n1 ri al s)).last_successful_backup =
            some rd.start_time) ∧
      (rd.status ≠ "success" →
        (updateSummaryFromRun jobId n2 rd
          (updateSummaryFromBorgInfo jobId n1 ri al s)).last_successful_backup =
            s.last_successful_backup) ∧
      (updateSummaryFromRun jobId n2 rd
        (updateSummaryFromBorgInfo jobId n1 ri al s)).archive_count = some al.length ∧
      (∀ st : CacheStats, ri.stats = some st →
        (updateSummaryFromRun jobId n2 rd
          (updateSummaryFromBorgInfo jobId n1 ri al s)).full_size =
            some (formatSize (st.total_size.getD 0))) ∧
      (updateSummaryFromRun jobId n2 rd
        (updateSummaryFromBorgInfo jobId n1 ri al s)).full_size.isSome ∧
      (updateSummaryFromRun jobId n2 rd
        (updateSummaryFromBorgInfo jobId n1 ri al s)).compressed_size.isSome ∧
      (updateSummaryFromRun jobId n2 rd
        (updateSummaryFromBorgInfo jobId n1 ri al s)).deduplicated_size.isSome ∧
      (updateSummaryFromRun jobId n2 rd
        (updateSummaryFromBorgInfo jobId n1 ri al s)).compression_ratio.isSome) := by
  constructor
  · refine ⟨?_, ?_, fun hs => ?_, fun hs => ?_, ?_, ?_, ?_, ?_, ?_⟩
    · simp [updateSummaryFromBorgInfo, updateSummaryFromRun, hst]
    · simp [updateSummaryFromBorgInfo, updateSummaryFromRun]
    · simp [updateSummaryFromBorgInfo, updateSummaryFromRun, hs]
    · simp [updateSummaryFromBorgInfo, updateSummaryFromRun, hs]
    · simp [updateSummaryFromBorgInfo, updateSummaryFromRun]
    · cases hstats : ri.stats <;>
        simp [updateSummaryFromBorgInfo, updateSummaryFromRun, hstats]
    · cases hstats : ri.stats <;>
        simp [updateSummaryFromBorgInfo, updateSummaryFromRun, hstats]
    · cases hstats : ri.stats <;>
        simp [updateSummaryFromBorgInfo, updateSummaryFromRun, hstats]
    · cases hstats : ri.stats <;>
        simp [updateSummaryFromBorgInfo, updateSummaryFromRun, hstats]
  · refine ⟨?_, ?_, fun hs => ?_, fun hs => ?_, ?_, fun st hstats => ?_, ?_, ?_, ?_, ?_⟩
    · simp [updateSummaryFromBorgInfo, updateSummaryFromRun, hst]
    · simp [updateSummaryFromBorgInfo, updateSummaryFromRun]
    · simp [updateSummaryFromBorgInfo, updateSummaryFromRun, hs]
    · simp [updateSummaryFromBorgInfo, updateSummaryFromRun, hs]
    · cases hstats : ri.stats <;>
        simp [updateSummaryFromBorgInfo, updateSummaryFromRun, hstats]
    · simp [updateSummaryFromBorgInfo, updateSummaryFromRun, hstats]
    · cases hstats : ri.stats <;>
        simp [updateSummaryFromBorgInfo, updateSummaryFromRun, hstats]
    · cases hstats : ri.stats <;>
        simp [updateSummaryFromBorgInfo, updateSummaryFromRun, hstats]
    · cases hstats : ri.stats <;>
        simp [updateSummaryFromBorgInfo, updateSummaryFromRun, hstats]
    · cases hstats : ri.stats <;>
        simp [updateSummaryFromBorgInfo, updateSummaryFromRun, hstats]

/-- Witness for C2 (amended), at a failed run over an empty summary with
cache statistics present. -/
theorem field_preservation_amended_witness :
    (updateSummaryFromBorgInfo "job1" 2
        ⟨some ⟨none, some "/repo"⟩, some (some ⟨some 10, some 5, some 3⟩), false, false⟩ []
        (updateSummaryFromRun "job1" 1 ⟨"r1", "failed", 100, none, none, none⟩
          emptySummary)).status = some "failed" :=
  (field_preservation_amended "job1" 1 2 ⟨"r1", "failed", 100, none, none, none⟩
    ⟨some ⟨none, some "/repo"⟩, some (some ⟨some 10, some 5, some 3⟩), false, false⟩ []
    emptySummary (by decide)).1.1

/-! ## C9: `parse_max_age_to_seconds` -/

/-- Stated from the claim: a string of the form `<N><unit>` — one or more
decimal digits (any Unicode `Nd` digit, as `\d` matches) immediately
followed by a unit in `{m, h, d}`, and nothing else. -/
def isCanonicalMaxAge (s : String) : Prop :=
  ∃ ds u, ds ≠ [] ∧ (∀ c ∈ ds, isPyDigit c) ∧ (u = 'm' ∨ u = 'h' ∨ u = 'd') ∧
    s.toList = ds ++ [u]

/-- What the Python regex actually accepts: the canonical form, optionally
followed by one trailing newline (the un-flagged `$` anchor). -/
def relaxedMaxAge (s : String) : Prop :=
  ∃ ds u, ds ≠ [] ∧ (∀ c ∈ ds, isPyDigit c) ∧ (u = 'm' ∨ u = 'h' ∨ u = 'd') ∧
    (s.toList = ds ++ [u] ∨ s.toList = ds ++ [u, '\n'])

/-- The unit multiplier of the claim: `m = 60`, `h = 3600`, `d = 86400`. -/
def unitSeconds (u : Char) : Nat :=
  if u = 'm' then 60 else if u = 'h' then 3600 else if u = 'd' then 86400 else 0

/-- Claim C9, counterexample: `"5m\n"` is not of the form `<N><unit>`,
yet `parse_max_age_to_seconds` returns `300` on it instead of failing —
Python's `$` anchor also matches just before a single final newline. -/
theorem parse_max_age_counterexample :
    ¬ isCanonicalMaxAge "5m\n" ∧ parseMaxAgeToSeconds "5m\n" = .ok 300 := by
  constructor
  · rintro ⟨ds, u, _hne, _hdig, hu, hs⟩
    have hlast : (("5m\n").toList).getLast? = some u := by
      rw [hs]; exact List.getLast?_concat ds
    have : u = '\n' := by
      have : (['5', 'm', '\n'] : List Char).getLast? = some u := hlast
      simpa using this.symm
    rcases hu with h | h | h <;> simp [this] at h
  · rfl

/-- Claim C9 as amended: every string of the form `<N><unit>` — where `N`
is a nonempty run of Unicode decimal digits (the class `\d` matches and
`int()` converts), optionally followed by one trailing newline, which the
Python `$` anchor tolerates — parses to `N` times the unit multiplier,
and every other string fails with the `Invalid max_age format` error. -/
theorem parse_max_age_amended :
    (∀ (ds : List Char) (u : Char) (tl : List Char),
      ds ≠ [] → (∀ c ∈ ds, isPyDigit c) → (u = 'm' ∨ u = 'h' ∨ u = 'd') →
      (tl = [] ∨ tl = ['\n']) →
      parseMaxAgeToSeconds ⟨ds ++ [u] ++ tl⟩ = .ok (digitsToNat ds * unitSeconds u)) ∧
    (∀ s : String, ¬ relaxedMaxAge s →
      parseMaxAgeToSeconds s = .error ("Invalid max_age format: " ++ s)) := by
  constructor
  · intro ds u tl hne hdig hu htl
    have hun : u ≠ '\n' := by rcases hu with h | h | h <;> simp [h]
    have hcore : pyAnchoredCore (String.mk (ds ++ [u] ++ tl)).toList = ds ++ [u] := by
      rcases htl with h | h <;> subst h
      · show pyAnchoredCore (ds ++ [u] ++ []) = ds ++ [u]
        rw [List.append_nil]
        unfold pyAnchoredCore
        rw [List.getLast?_concat]
        simp [hun]
      · show pyAnchoredCore (ds ++ [u] ++ ['\n']) = ds ++ [u]
        unfold pyAnchoredCore
        rw [List.getLast?_concat]
        simp [List.dropLast_concat]
    have hmatch : maxAgeMatch (String.mk (ds ++ [u] ++ tl)) = some (digitsToNat ds, u) := by
      simp only [maxAgeMatch, hcore, List.getLast?_concat, List.dropLast_concat]
      rw [if_pos hu, if_pos ⟨hne, List.all_eq_true.mpr hdig⟩]
    unfold parseMaxAgeToSeconds
    rw [hmatch]
    rcases hu with h | h | h <;> subst h <;> simp [unitSeconds]
  · intro s hrel
    unfold parseMaxAgeToSeconds
    cases hm : maxAgeMatch s with
    | none => rfl
    | some p =>
      exfalso
      apply hrel
      simp only [maxAgeMatch] at hm
      cases hcl : (pyAnchoredCore s.toList).getLast? with
      | none => rw [hcl] at hm; exact absurd hm (by simp)
      | some u =>
        rw [hcl] at hm
        simp only [] at hm
        by_cases hu : u = 'm' ∨ u = 'h' ∨ u = 'd'
        · rw [if_pos hu] at hm
          by_cases hds : (pyAnchoredCore s.toList).dropLast ≠ [] ∧
              ((pyAnchoredCore s.toList).dropLast).all isPyDigit = true
          · have hcne : pyAnchoredCore s.toList ≠ [] := by
              intro h0; rw [h0] at hcl; exact absurd hcl (by simp)
            have hdecomp : (pyAnchoredCore s.toList).dropLast ++ [u] = pyAnchoredCore s.toList := by
              have := List.dropLast_append_getLast hcne
              have hg : (pyAnchoredCore s.toList).getLast hcne = u := by
                have := List.getLast?_eq_getLast_of_ne_nil hcne
                rw [hcl] at this
                exact (Option.some_injective _ this.symm)
              rw [hg] at this
              exact this
            refine ⟨(pyAnchoredCore s.toList).dropLast, u, hds.1,
              fun c hc => List.all_eq_true.mp hds.2 c hc, hu, ?_⟩
            unfold pyAnchoredCore at hdecomp ⊢
            by_cases hnl : s.toList.getLast? = some '\n'
            · right
              rw [if_pos hnl] at hdecomp
              have hsne : s.toList ≠ [] := by
                intro h0; rw [h0] at hnl; exact absurd hnl (by simp)
              have hself := List.dropLast_append_getLast hsne
              have hgl : s.toList.getLast hsne = '\n' := by
                have := List.getLast?_eq_getLast_of_ne_nil hsne
                rw [hnl] at this
                exact (Option.some_injective _ this.symm)
              rw [hgl] at hself
              rw [if_pos hnl]
              calc s.toList = s.toList.dropLast ++ ['\n'] := hself.symm
                _ = (s.toList.dropLast.dropLast ++ [u]) ++ ['\n'] := by rw [hdecomp]
                _ = s.toList.dropLast.dropLast ++ [u, '\n'] := by simp
            · left
              rw [if_neg hnl] at hdecomp
              rw [if_neg hnl]
              exact hdecomp.symm
          · rw [if_neg hds] at hm; exact absurd hm (by simp)
        · rw [if_neg hu] at hm; exact absurd hm (by simp)

/-- Witness for C9 (amended): `"2h"` parses to `7200`, the Arabic-Indic
`"٥m"` parses to `300` (a Unicode digit the `\d` class matches), and the
empty string fails with the `Invalid max_age format` error. -/
theorem parse_max_age_amended_witness :
    parseMaxAgeToSeconds ⟨['2'] ++ ['h'] ++ []⟩ =
      .ok (digitsToNat ['2'] * unitSeconds 'h') ∧
    parseMaxAgeToSeconds ⟨['٥'] ++ ['m'] ++ []⟩ =
      .ok (digitsToNat ['٥'] * unitSeconds 'm') ∧
    parseMaxAgeToSeconds "" = .error ("Invalid max_age format: " ++ "") :=
  ⟨parse_max_age_amended.1 ['2'] 'h' [] (by decide) (by decide) (Or.inr (Or.inl rfl))
      (Or.inl rfl),
    parse_max_age_amended.1 ['٥'] 'm' [] (by decide) (by decide) (Or.inl rfl)
      (Or.inl rfl),
    parse_max_age_amended.2 "" (by
      rintro ⟨ds, u, hne, _, _, hs | hs⟩ <;>
        · have : ("" : String).toList = [] := rfl
          rw [this] at hs
          exact absurd hs.symm (by simp))⟩

/-! ## C10 and C5: query-layer behaviour -/

/-- A key that appears in an association list is found by `lookup`. -/
theorem lookup_isSome_of_mem {β : Type} (k : String) (v : β)
    (l : List (String × β)) (hmem : (k, v) ∈ l) : (l.lookup k).isSome := by
  induction l with
  | nil => cases hmem
  | cons head tail ih =>
    rcases List.mem_cons.mp hmem with h | h
    · rw [← h]
      simp [List.lookup]
    · cases head with
    | mk k0 v0 =>
      by_cases hk : k = k0
      · simp [List.lookup, hk]
      · simpa [List.lookup, beq_eq_false_iff_ne.mpr hk] using ih h

/-- Claim C10: a configured job whose summary file does not exist still
appears in `get_all_jobs` and `get_job_details`, with status the literal
`"no-data"` and placeholder stats (count 0, sizes `"0 B"`, ratio `"0%"`). -/
theorem no_data_job_view (now : Nat) (configs : List (String × JobConfigR))
    (store : String → JobStore) (jobId : String) (config : JobConfigR)
    (hmem : (jobId, config) ∈ configs) (hsum : (store jobId).summary = none) :
    (∃ v ∈ getAllJobs now configs store,
      v.jobId = jobId ∧ v.status = "no-data" ∧
      v.stats = ⟨0, "0 B", "0 B", "0 B", "0%"⟩) ∧
    (∃ jv, getJobDetails now configs store jobId = some jv ∧
      jv.summaryRow.status = "no-data" ∧
      jv.summaryRow.stats = ⟨0, "0 B", "0 B", "0 B", "0%"⟩) := by
  constructor
  · refine ⟨mkJobSummaryView now jobId config (store jobId).summary (store jobId).archives,
      ?_, rfl, ?_, ?_⟩
    · unfold getAllJobs
      rw [List.mem_insertionSort]
      exact List.mem_map_of_mem _ hmem
    · simp [mkJobSummaryView, hsum, emptySummary]
    · simp [mkJobSummaryView, hsum, emptySummary]
  · have hsome := lookup_isSome_of_mem jobId config configs hmem
    cases hl : configs.lookup jobId with
    | none => rw [hl] at hsome; cases hsome
    | some config2 =>
      refine ⟨_, by rw [getJobDetails, hl], ?_, ?_⟩
      · simp [mkJobSummaryView, hsum, emptySummary]
      · simp [mkJobSummaryView, hsum, emptySummary]

/-- Witness for C10: one configured job, no stored data at all. -/
theorem no_data_job_view_witness :
    (∃ v ∈ getAllJobs 0 [("j", ⟨some "j", none, none, none, none, none, none⟩)]
        (fun _ => ⟨none, none⟩),
      v.jobId = "j" ∧ v.status = "no-data" ∧
      v.stats = ⟨0, "0 B", "0 B", "0 B", "0%"⟩) ∧
    (∃ jv, getJobDetails 0 [("j", ⟨some "j", none, none, none, none, none, none⟩)]
        (fun _ => ⟨none, none⟩) "j" = some jv ∧
      jv.summaryRow.status = "no-data" ∧
      jv.summaryRow.stats = ⟨0, "0 B", "0 B", "0 B", "0%"⟩) :=
  no_data_job_view 0 [("j", ⟨some "j", none, none, none, none, none, none⟩)]
    (fun _ => ⟨none, none⟩) "j" ⟨some "j", none, none, none, none, none, none⟩
    (by simp) rfl

/-- Claim C5, counterexample: for a configured job with no stored data,
the archives endpoint does *not* return an empty page — the storage layer
returns `None` for a missing `archives.json` and the route turns that into
a 404 `"Job not found"`. -/
theorem missing_archives_counterexample :
    apiGetJobArchives 0 none 0 15 "date" "desc" = .error (.notFound "Job not found") := by
  rfl

/-- Claim C5 as amended: a missing `runs.json` yields an empty run list
(no error), but a missing `archives.json` yields a 404 not-found from the
archives route; an empty page is returned only when the archives file
exists and is empty. -/
theorem missing_optional_data_amended (now offset limit : Nat) (sortBy sortOrder : String) :
    getJobRuns now none limit = [] ∧
    apiGetJobArchives now none offset limit sortBy sortOrder =
      .error (.notFound "Job not found") ∧
    apiGetJobArchives now (some []) offset limit sortBy sortOrder =
      .ok { items := [], total := 0, hasMore := false, nextOffset := none } := by
  refine ⟨rfl, rfl, ?_⟩
  simp [apiGetJobArchives, getJobArchivesStorage, Nat.not_lt_zero]

/-! ## C4: unresolved repository label -/

/-- Claim C4, counterexample: a borgmatic info push with a non-empty
repository list whose single entry is labelled `"a"`, filtered with the
selector `"b"`, does *not* fail — `filter_borgmatic_data` falls back to
the first entry, the route's truthiness check passes, and the first
payload's repository info is stored. -/
theorem label_fallback_counterexample :
    pushBorgmaticInfo
        [⟨some ⟨some "a", some "/repo/a"⟩,
          some [⟨"arch1", some 10, none, none, none, none, none⟩], none, false, false, false⟩]
        (some "b") =
      .ok (storeBorgmaticInfo
        ⟨some ⟨some "a", some "/repo/a"⟩,
          some [⟨"arch1", some 10, none, none, none, none, none⟩], none, false, false, false⟩) ∧
    (storeBorgmaticInfo
        ⟨some ⟨some "a", some "/repo/a"⟩,
          some [⟨"arch1", some 10, none, none, none, none, none⟩], none, false, false,
          false⟩).repoFile =
      some ⟨some ⟨some "a", some "/repo/a"⟩, none, false, false⟩ := by
  constructor <;> rfl

/-- Claim C4 as amended: when a truthy `repository_label` matches no entry
of a non-empty repository list, both the info and the rinfo push do not
fail: they fall back to storing the *first* repository payload.  (The
`RepositoryLabelNotFound`-style 400 fires only when the filtered payload
is an empty dict, i.e. for an empty list.) -/
theorem label_fallback_amended (data : List BPayload) (label : String)
    (hlab : label ≠ "")
    (hnomatch : ∀ p ∈ data, ¬ p.repository.bind BRepo.label = some label)
    (hhead : (data.headD emptyBPayload).isEmptyDict = false) :
    pushBorgmaticInfo data (some label) =
      .ok (storeBorgmaticInfo (data.headD emptyBPayload)) ∧
    pushBorgmaticRinfo data (some label) =
      .ok (storeBorgmaticRinfo (data.headD emptyBPayload)) := by
  have htruthy : labelTruthy (some label) = true := by
    simp [labelTruthy, hlab]
  have hfind :
      data.find? (fun p => (p.repository.bind BRepo.label) = some label) = none := by
    rw [List.find?_eq_none]
    intro x hx
    simpa using hnomatch x hx
  have hfilter : routeFilterBorgmatic data (some label) = .ok (data.headD emptyBPayload) := by
    unfold routeFilterBorgmatic
    rw [if_neg (by simp [htruthy])]
    rw [if_pos htruthy]
    simp only [filterBorgmaticList, Option.getD_some, hfind]
    rw [if_neg (by simp [← List.headD_eq_head?_getD, hhead])]
  constructor <;> simp [pushBorgmaticInfo, pushBorgmaticRinfo, hfilter, Except.map]

/-- Witness for C4 (amended), at the single mislabelled repository of the
counterexample. -/
theorem label_fallback_amended_witness :
    pushBorgmaticInfo
        [⟨some ⟨some "a", some "/repo/a"⟩,
          some [⟨"arch1", some 10, none, none, none, none, none⟩], none, false, false, false⟩]
        (some "b") =
      .ok (storeBorgmaticInfo
        (([⟨some ⟨some "a", some "/repo/a"⟩,
            some [⟨"arch1", some 10, none, none, none, none, none⟩], none, false, false,
            false⟩] : List BPayload).headD emptyBPayload)) :=
  (label_fallback_amended
    [⟨some ⟨some "a", some "/repo/a"⟩,
      some [⟨"arch1", some 10, none, none, none, none, none⟩], none, false, false, false⟩]
    "b" (by decide) (by decide) (by decide)).1

/-! ## C6: duplicate `job_id` across config files -/

theorem startsWithL_refl (l : List Char) : startsWithL l l = true := by
  induction l with
  | nil => rfl
  | cons a as ih => simp [startsWithL, ih]

theorem startsWithL_append (n h t : List Char) (hs : startsWithL n h = true) :
    startsWithL n (h ++ t) = true := by
  induction n generalizing h with
  | nil => rfl
  | cons a as ih =>
    cases h with
    | nil => cases hs
    | cons b bs =>
      simp only [startsWithL, Bool.and_eq_true] at hs
      simp only [List.cons_append, startsWithL, Bool.and_eq_true]
      exact ⟨hs.1, ih bs hs.2⟩

theorem containsL_nil_needle (l : List Char) : containsL [] l = true := by
  cases l <;> simp [containsL, startsWithL, List.isEmpty]

theorem containsL_append_left (n a b : List Char) (hc : containsL n a = true) :
    containsL n (a ++ b) = true := by
  induction a with
  | nil =>
    simp only [containsL] at hc
    have : n = [] := by
      cases n with
      | nil => rfl
      | cons x xs => simp [List.isEmpty] at hc
    rw [this, List.nil_append]
    exact containsL_nil_needle b
  | cons x xs ih =>
    simp only [containsL, Bool.or_eq_true] at hc
    rcases hc with hc | hc
    · simp only [List.cons_append, containsL, Bool.or_eq_true]
      left
      have := startsWithL_append n (x :: xs) b hc
      simpa using this
    · simp only [List.cons_append, containsL, Bool.or_eq_true]
      right
      exact ih hc

theorem containsL_append_right (n a b : List Char) (hc : containsL n b = true) :
    containsL n (a ++ b) = true := by
  induction a with
  | nil => simpa using hc
  | cons x xs ih =>
    simp only [List.cons_append, containsL, Bool.or_eq_true]
    right
    exact ih

theorem containsL_self_append (n post : List Char) : containsL n (n ++ post) = true := by
  cases hn : n ++ post with
  | nil =>
    have : n = [] := (List.append_eq_nil.mp hn).1
    simp [this, containsL, List.isEmpty]
  | cons c cs =>
    have hsw : startsWithL n (n ++ post) = true :=
      startsWithL_append n n post (startsWithL_refl n)
    rw [hn] at hsw
    simp [containsL, hsw]

theorem startsWithL_iff (n h : List Char) :
    startsWithL n h = true ↔ ∃ t, h = n ++ t := by
  constructor
  · intro hs
    induction n generalizing h with
    | nil => exact ⟨h, rfl⟩
    | cons a as ih =>
      cases h with
      | nil => cases hs
      | cons b bs =>
        simp only [startsWithL, Bool.and_eq_true, decide_eq_true_eq] at hs
        obtain ⟨t, ht⟩ := ih bs hs.2
        exact ⟨t, by rw [ht, hs.1]; rfl⟩
  · rintro ⟨t, rfl⟩
    exact startsWithL_append n n t (startsWithL_refl n)

theorem containsL_iff (n l : List Char) :
    containsL n l = true ↔ ∃ pre post, l = pre ++ n ++ post := by
  constructor
  · intro hc
    induction l with
    | nil =>
      simp only [containsL] at hc
      have : n = [] := by
        cases n with
        | nil => rfl
        | cons x xs => simp [List.isEmpty] at hc
      exact ⟨[], [], by simp [this]⟩
    | cons b bs ih =>
      simp only [containsL, Bool.or_eq_true] at hc
      rcases hc with hc | hc
      · obtain ⟨t, ht⟩ := (startsWithL_iff n (b :: bs)).mp hc
        exact ⟨[], t, by simp [ht]⟩
      · obtain ⟨pre, post, hp⟩ := ih hc
        exact ⟨b :: pre, post, by simp [hp]⟩
  · rintro ⟨pre, post, rfl⟩
    rw [List.append_assoc]
    exact containsL_append_right n pre (n ++ post) (containsL_self_append n post)

theorem containsL_trans (a b c : List Char) (hab : containsL a b = true)
    (hbc : containsL b c = true) : containsL a c = true := by
  obtain ⟨p2, s2, h2⟩ := (containsL_iff b c).mp hbc
  obtain ⟨p1, s1, h1⟩ := (containsL_iff a b).mp hab
  refine (containsL_iff a c).mpr ⟨p2 ++ p1, s1 ++ s2, ?_⟩
  rw [h2, h1]
  simp

theorem strContains_refl (s : String) : strContains s s = true := by
  unfold strContains
  cases h : s.toList with
  | nil => simp [containsL, List.isEmpty]
  | cons c cs => simp [containsL, startsWithL_refl]

theorem strContains_append_right (n a b : String) (hc : strContains n b = true) :
    strContains n (a ++ b) = true := by
  unfold strContains at hc ⊢
  rw [show (a ++ b).toList = a.toList ++ b.toList from String.data_append a b]
  exact containsL_append_right _ _ _ hc

theorem strContains_append_left (n a b : String) (hc : strContains n a = true) :
    strContains n (a ++ b) = true := by
  unfold strContains at hc ⊢
  rw [show (a ++ b).toList = a.toList ++ b.toList from String.data_append a b]
  exact containsL_append_left _ _ _ hc

theorem strContains_trans (a b c : String) (hab : strContains a b = true)
    (hbc : strContains b c = true) : strContains a c = true :=
  containsL_trans _ _ _ hab hbc

theorem strContains_pyJoin (sep : String) (parts : List String) (e : String)
    (hmem : e ∈ parts) : strContains e (pyJoin sep parts) = true := by
  induction parts with
  | nil => cases hmem
  | cons x xs ih =>
    cases xs with
    | nil =>
      rcases List.mem_cons.mp hmem with h | h
      · rw [h]; exact strContains_refl x
      · cases h
    | cons y ys =>
      rcases List.mem_cons.mp hmem with h | h
      · rw [h]
        show strContains x (x ++ sep ++ pyJoin sep (y :: ys)) = true
        exact strContains_append_left x (x ++ sep) _
          (strContains_append_left x x sep (strContains_refl x))
      · show strContains e (x ++ sep ++ pyJoin sep (y :: ys)) = true
        exact strContains_append_right e (x ++ sep) _ (ih h)

/-- The per-file loop of `validate_all_configs` distributes over list
append. -/
theorem vacLoop_append (gen : String → Nat → String) (a b : List (String × JobConfigR))
    (st : List (String × JobConfigR) × List String × List String) :
    vacLoop gen (a ++ b) st = vacLoop gen b (vacLoop gen a st) := by
  induction a generalizing st with
  | nil => rfl
  | cons head rest ih =>
    obtain ⟨c, s, e⟩ := st
    obtain ⟨name, cfg⟩ := head
    cases hv : validateAndFixJobConfig (gen name) cfg with
    | error msg => simp [vacLoop, hv, ih]
    | ok p =>
      obtain ⟨fixed, wasModified⟩ := p
      by_cases hseen : (fixed.job_id.getD "") ∈ s <;> simp [vacLoop, hv, hseen, ih]

/-- `seen_job_ids` only grows along the loop. -/
theorem vacLoop_seen_mono (gen : String → Nat → String)
    (fs : List (String × JobConfigR)) (c : List (String × JobConfigR))
    (s e : List String) (x : String) (hx : x ∈ s) :
    x ∈ (vacLoop gen fs (c, s, e)).2.1 := by
  induction fs generalizing c s e with
  | nil => exact hx
  | cons head rest ih =>
    obtain ⟨name, cfg⟩ := head
    cases hv : validateAndFixJobConfig (gen name) cfg with
    | error msg => simpa [vacLoop, hv] using ih _ _ _ hx
    | ok p =>
      obtain ⟨fixed, wasModified⟩ := p
      by_cases hseen : (fixed.job_id.getD "") ∈ s
      · simpa [vacLoop, hv, hseen] using ih _ _ _ hx
      · simpa [vacLoop, hv, hseen] using ih _ _ _ (List.mem_append_left _ hx)

/-- After processing a file that validates successfully, its `job_id` is
in `seen_job_ids`. -/
theorem vacLoop_seen_of_mem (gen : String → Nat → String)
    (fs : List (String × JobConfigR)) (c : List (String × JobConfigR))
    (s e : List String) (n : String) (cf fixed : JobConfigR) (m : Bool)
    (hmem : (n, cf) ∈ fs)
    (hv : validateAndFixJobConfig (gen n) cf = .ok (fixed, m)) :
    (fixed.job_id.getD "") ∈ (vacLoop gen fs (c, s, e)).2.1 := by
  induction fs generalizing c s e with
  | nil => cases hmem
  | cons head rest ih =>
    rcases List.mem_cons.mp hmem with h | h
    · rw [← h]
      by_cases hseen : (fixed.job_id.getD "") ∈ s
      · simpa [vacLoop, hv, hseen] using
          vacLoop_seen_mono gen rest _ _ _ _ hseen
      · simpa [vacLoop, hv, hseen] using
          vacLoop_seen_mono gen rest _ _ _ _
            (List.mem_append_right s (List.mem_singleton.mpr rfl))
    · obtain ⟨name, cfg⟩ := head
      cases hv0 : validateAndFixJobConfig (gen name) cfg with
      | error msg => simpa [vacLoop, hv0] using ih _ _ _ h
      | ok p =>
        obtain ⟨fixed0, m0⟩ := p
        by_cases hseen : (fixed0.job_id.getD "") ∈ s <;>
          simpa [vacLoop, hv0, hseen] using ih _ _ _ h

/-- The loop only appends to `errors`. -/
theorem vacLoop_errors_extend (gen : String → Nat → String)
    (fs : List (String × JobConfigR)) (c : List (String × JobConfigR))
    (s e : List String) :
    ∃ tail, (vacLoop gen fs (c, s, e)).2.2 = e ++ tail := by
  induction fs generalizing c s e with
  | nil => exact ⟨[], by simp [vacLoop]⟩
  | cons head rest ih =>
    obtain ⟨name, cfg⟩ := head
    cases hv : validateAndFixJobConfig (gen name) cfg with
    | error msg =>
      obtain ⟨tail, ht⟩ := ih c s (e ++ ["Error in " ++ name ++ ": " ++ msg])
      exact ⟨["Error in " ++ name ++ ": " ++ msg] ++ tail, by
        simp [vacLoop, hv, ht]⟩
    | ok p =>
      obtain ⟨fixed, wasModified⟩ := p
      by_cases hseen : (fixed.job_id.getD "") ∈ s
      · obtain ⟨tail, ht⟩ := ih c s
          (e ++ ["Duplicate job_id '" ++ (fixed.job_id.getD "") ++ "' found in " ++ name])
        exact ⟨["Duplicate job_id '" ++ (fixed.job_id.getD "") ++ "' found in " ++ name] ++
          tail, by simp [vacLoop, hv, hseen, ht]⟩
      · obtain ⟨tail, ht⟩ := ih (c ++ [((fixed.job_id.getD ""), fixed)]) (s ++ [fixed.job_id.getD ""]) e
        exact ⟨tail, by simp [vacLoop, hv, hseen, ht]⟩

/-- Claim C6, counterexample: two files `a.toml` and `b.toml` declaring
the same `job_id` fail validation, but the error message names only the
second file — `a.toml` does not occur in it. -/
theorem duplicate_job_id_counterexample :
    validateAllConfigs (fun _ _ => "k")
        [("a.toml", ⟨some "j", some "borgmatic", some "24h",
            some ["0123456789abcdef"], some "J", some [], none⟩),
          ("b.toml", ⟨some "j", some "borgmatic", some "24h",
            some ["0123456789abcdef"], some "J", some [], none⟩)] =
      .error "Configuration validation failed:\nDuplicate job_id 'j' found in b.toml" ∧
    strContains "a.toml"
      "Configuration validation failed:\nDuplicate job_id 'j' found in b.toml" = false := by
  constructor
  · rfl
  · decide

/-- Claim C6 as amended: whenever two config files (in validation order)
resolve to the same `job_id`, the whole batch fails with a
`ConfigValidationFailed` error whose message names the *second* offending
file (the first is not enumerated), zero configurations are returned, and
the query layer degrades to an empty job list. -/
theorem duplicate_job_id_amended (gen : String → Nat → String)
    (fs1 fs2 fs3 : List (String × JobConfigR)) (n1 n2 : String)
    (c1 c2 fixed1 fixed2 : JobConfigR) (m1 m2 : Bool)
    (hv1 : validateAndFixJobConfig (gen n1) c1 = .ok (fixed1, m1))
    (hv2 : validateAndFixJobConfig (gen n2) c2 = .ok (fixed2, m2))
    (hid : fixed1.job_id.getD "" = fixed2.job_id.getD "") :
    (∃ msg, validateAllConfigs gen (fs1 ++ [(n1, c1)] ++ fs2 ++ [(n2, c2)] ++ fs3) =
        .error msg ∧
      strContains ("Duplicate job_id '" ++ (fixed2.job_id.getD "") ++ "' found in " ++ n2)
        msg = true ∧
      strContains n2 msg = true) ∧
    getAllJobConfigs gen (fs1 ++ [(n1, c1)] ++ fs2 ++ [(n2, c2)] ++ fs3) = [] ∧
    (∀ (now : Nat) (store : String → JobStore),
      getAllJobs now (getAllJobConfigs gen (fs1 ++ [(n1, c1)] ++ fs2 ++ [(n2, c2)] ++ fs3))
        store = []) := by
  have hsplit : vacLoop gen (fs1 ++ [(n1, c1)] ++ fs2 ++ [(n2, c2)] ++ fs3) ([], [], []) =
      vacLoop gen ((n2, c2) :: fs3)
        (vacLoop gen (fs1 ++ [(n1, c1)] ++ fs2) ([], [], [])) := by
    rw [show fs1 ++ [(n1, c1)] ++ fs2 ++ [(n2, c2)] ++ fs3 =
      (fs1 ++ [(n1, c1)] ++ fs2) ++ ((n2, c2) :: fs3) by simp]
    exact vacLoop_append gen _ _ _
  rcases hmid : vacLoop gen (fs1 ++ [(n1, c1)] ++ fs2) ([], [], []) with ⟨cM, sM, eM⟩
  have hseen2 : (fixed2.job_id.getD "") ∈ sM := by
    have hmem := vacLoop_seen_of_mem gen (fs1 ++ [(n1, c1)] ++ fs2) [] [] [] n1 c1 fixed1 m1
      (by simp) hv1
    rw [hmid] at hmem
    rw [← hid]
    simpa using hmem
  obtain ⟨tail, ht⟩ := vacLoop_errors_extend gen fs3 cM sM
    (eM ++ ["Duplicate job_id '" ++ (fixed2.job_id.getD "") ++ "' found in " ++ n2])
  have herrs : (vacLoop gen (fs1 ++ [(n1, c1)] ++ fs2 ++ [(n2, c2)] ++ fs3)
      ([], [], [])).2.2 =
      (eM ++ ["Duplicate job_id '" ++ (fixed2.job_id.getD "") ++ "' found in " ++ n2]) ++
        tail := by
    rw [hsplit, hmid]
    simpa [vacLoop, hv2, hseen2] using ht
  have hdupMem : ("Duplicate job_id '" ++ (fixed2.job_id.getD "") ++ "' found in " ++ n2) ∈
      (vacLoop gen (fs1 ++ [(n1, c1)] ++ fs2 ++ [(n2, c2)] ++ fs3) ([], [], [])).2.2 := by
    rw [herrs]
    exact List.mem_append_left _ (List.mem_append_right _ (List.mem_singleton.mpr rfl))
  have hne : (vacLoop gen (fs1 ++ [(n1, c1)] ++ fs2 ++ [(n2, c2)] ++ fs3)
      ([], [], [])).2.2 ≠ [] :=
    List.ne_nil_of_mem hdupMem
  have hval : validateAllConfigs gen (fs1 ++ [(n1, c1)] ++ fs2 ++ [(n2, c2)] ++ fs3) =
      .error ("Configuration validation failed:\n" ++ pyJoin "\n"
        (vacLoop gen (fs1 ++ [(n1, c1)] ++ fs2 ++ [(n2, c2)] ++ fs3) ([], [], [])).2.2) := by
    unfold validateAllConfigs
    rw [if_pos hne]
  have hcfg : getAllJobConfigs gen (fs1 ++ [(n1, c1)] ++ fs2 ++ [(n2, c2)] ++ fs3) = [] := by
    unfold getAllJobConfigs
    rw [hval]
  refine ⟨⟨_, hval, ?_, ?_⟩, hcfg, ?_⟩
  · exact strContains_append_right _ "Configuration validation failed:\n" _
      (strContains_pyJoin "\n" _ _ hdupMem)
  · refine strContains_trans n2
      ("Duplicate job_id '" ++ (fixed2.job_id.getD "") ++ "' found in " ++ n2) _ ?_ ?_
    · exact strContains_append_right n2
        ("Duplicate job_id '" ++ (fixed2.job_id.getD "") ++ "' found in ") n2
        (strContains_refl n2)
    · exact strContains_append_right _ "Configuration validation failed:\n" _
        (strContains_pyJoin "\n" _ _ hdupMem)
  · intro now store
    rw [hcfg]
    rfl

/-- Witness for C6 (amended), at the two concrete files of the
counterexample. -/
theorem duplicate_job_id_amended_witness :
    (∃ msg, validateAllConfigs (fun _ _ => "k")
        ([] ++ [("a.toml", ⟨some "j", some "borgmatic", some "24h",
            some ["0123456789abcdef"], some "J", some [], none⟩)] ++ [] ++
          [("b.toml", ⟨some "j", some "borgmatic", some "24h",
            some ["0123456789abcdef"], some "J", some [], none⟩)] ++ []) = .error msg ∧
      strContains ("Duplicate job_id '" ++
        ((⟨some "j", some "borgmatic", some "24h", some ["0123456789abcdef"], some "J",
          some [], none⟩ : JobConfigR).job_id.getD "") ++ "' found in " ++ "b.toml")
        msg = true ∧
      strContains "b.toml" msg = true) ∧
    getAllJobConfigs (fun _ _ => "k")
        ([] ++ [("a.toml", ⟨some "j", some "borgmatic", some "24h",
            some ["0123456789abcdef"], some "J", some [], none⟩)] ++ [] ++
          [("b.toml", ⟨some "j", some "borgmatic", some "24h",
            some ["0123456789abcdef"], some "J", some [], none⟩)] ++ []) = [] ∧
    (∀ (now : Nat) (store : String → JobStore),
      getAllJobs now (getAllJobConfigs (fun _ _ => "k")
        ([] ++ [("a.toml", ⟨some "j", some "borgmatic", some "24h",
            some ["0123456789abcdef"], some "J", some [], none⟩)] ++ [] ++
          [("b.toml", ⟨some "j", some "borgmatic", some "24h",
            some ["0123456789abcdef"], some "J", some [], none⟩)] ++ [])) store = []) :=
  duplicate_job_id_amended (fun _ _ => "k") [] [] [] "a.toml" "b.toml"
    ⟨some "j", some "borgmatic", some "24h", some ["0123456789abcdef"], some "J",
      some [], none⟩
    ⟨some "j", some "borgmatic", some "24h", some ["0123456789abcdef"], some "J",
      some [], none⟩
    ⟨some "j", some "borgmatic", some "24h", some ["0123456789abcdef"], some "J",
      some [], none⟩
    ⟨some "j", some "borgmatic", some "24h", some ["0123456789abcdef"], some "J",
      some [], none⟩
    false false (by rfl) (by rfl) rfl

/-! ## C7: the runs-list invariant -/

theorem mkRunEntry_id (rd : RunData) : (mkRunEntry rd).id = rd.run_id := rfl

theorem mkRunEntry_timestamp (rd : RunData) :
    (mkRunEntry rd).timestamp = rd.start_time := rfl

theorem replaceFirstById_eq_none (e : RunEntry) (l : List RunEntry) :
    replaceFirstById e l = none ↔ e.id ∉ l.map RunEntry.id := by
  induction l with
  | nil => simp [replaceFirstById]
  | cons x xs ih =>
    by_cases h : x.id = e.id
    · simp only [replaceFirstById, if_pos h]
      simp [← h]
    · simp only [replaceFirstById, if_neg h, Option.map_eq_none', ih, List.map_cons,
        List.mem_cons]
      constructor
      · intro hn
        rintro (heq | hmem)
        · exact h heq.symm
        · exact hn hmem
      · intro hn hmem
        exact hn (Or.inr hmem)

theorem map_id_replaceFirstById (e : RunEntry) (l l2 : List RunEntry)
    (h : replaceFirstById e l = some l2) :
    l2.map RunEntry.id = l.map RunEntry.id := by
  induction l generalizing l2 with
  | nil => cases h
  | cons x xs ih =>
    by_cases hx : x.id = e.id
    · rw [replaceFirstById, if_pos hx] at h
      injection h with h2
      rw [← h2]
      simp [hx]
    · rw [replaceFirstById, if_neg hx] at h
      cases hr : replaceFirstById e xs with
      | none => rw [hr] at h; cases h
      | some l2x =>
        rw [hr] at h
        injection h with h2
        rw [← h2]
        simp [ih l2x hr]

theorem mem_replaceFirstById (e : RunEntry) (l l2 : List RunEntry) (x : RunEntry)
    (hn : (l.map RunEntry.id).Nodup) (h : replaceFirstById e l = some l2)
    (hx : x ∈ l2) (hid : x.id = e.id) : x = e := by
  induction l generalizing l2 with
  | nil => cases h
  | cons y ys ih =>
    simp only [List.map_cons, List.nodup_cons] at hn
    by_cases hy : y.id = e.id
    · rw [replaceFirstById, if_pos hy] at h
      injection h with h2
      rw [← h2] at hx
      rcases List.mem_cons.mp hx with rfl | hmem
      · rfl
      · exfalso
        apply hn.1
        have hmm : x.id ∈ ys.map RunEntry.id := List.mem_map_of_mem _ hmem
        rw [hid] at hmm
        rw [hy]
        exact hmm
    · rw [replaceFirstById, if_neg hy] at h
      cases hr : replaceFirstById e ys with
      | none => rw [hr] at h; cases h
      | some l2x =>
        rw [hr] at h
        injection h with h2
        rw [← h2] at hx
        rcases List.mem_cons.mp hx with rfl | hmem
        · exact absurd hid hy
        · exact ih l2x hn.2 hr hmem

theorem upsertRun_of_not_mem (e : RunEntry) (l : List RunEntry)
    (h : e.id ∉ l.map RunEntry.id) : upsertRun e l = l ++ [e] := by
  rw [upsertRun, (replaceFirstById_eq_none e l).mpr h]

theorem nodup_map_id_upsertRun (e : RunEntry) (l : List RunEntry)
    (hn : (l.map RunEntry.id).Nodup) :
    ((upsertRun e l).map RunEntry.id).Nodup := by
  cases hr : replaceFirstById e l with
  | none =>
    rw [upsertRun, hr]
    have hnm := (replaceFirstById_eq_none e l).mp hr
    simp [List.nodup_append, hn, hnm]
  | some l2 =>
    rw [upsertRun, hr]
    rw [map_id_replaceFirstById e l l2 hr]
    exact hn

theorem mem_upsertRun_eq (e : RunEntry) (l : List RunEntry) (x : RunEntry)
    (hn : (l.map RunEntry.id).Nodup) (hx : x ∈ upsertRun e l) (hid : x.id = e.id) :
    x = e := by
  cases hr : replaceFirstById e l with
  | none =>
    rw [upsertRun, hr] at hx
    rcases List.mem_append.mp hx with hm | hm
    · exfalso
      apply (replaceFirstById_eq_none e l).mp hr
      have := List.mem_map_of_mem RunEntry.id hm
      rw [hid] at this
      exact this
    · exact List.mem_singleton.mp hm
  | some l2 =>
    rw [upsertRun, hr] at hx
    exact mem_replaceFirstById e l l2 x hn hr hx hid

/-- Two sorted-descending lists with the same entries and duplicate-free
timestamps are equal. -/
theorem eq_of_perm_sorted_ts_nodup (l1 l2 : List RunEntry)
    (hp : List.Perm l1 l2) (hs1 : List.Sorted runGe l1) (hs2 : List.Sorted runGe l2)
    (hn : (l1.map RunEntry.timestamp).Nodup) : l1 = l2 := by
  induction l1 generalizing l2 with
  | nil => exact hp.nil_eq
  | cons a t1 ih =>
    cases l2 with
    | nil => exact absurd hp.symm.nil_eq (by simp)
    | cons b t2 =>
      have hab : a = b := by
        by_contra hne
        have ha2 : a ∈ b :: t2 := hp.mem_iff.mp (List.mem_cons_self a t1)
        have hb1 : b ∈ a :: t1 := hp.mem_iff.mpr (List.mem_cons_self b t2)
        have ha2x : a ∈ t2 := by
          rcases List.mem_cons.mp ha2 with h | h
          · exact absurd h hne
          · exact h
        have hb1x : b ∈ t1 := by
          rcases List.mem_cons.mp hb1 with h | h
          · exact absurd h.symm hne
          · exact h
        have h1 : runGe a b := (List.pairwise_cons.mp hs1).1 b hb1x
        have h2 : runGe b a := (List.pairwise_cons.mp hs2).1 a ha2x
        have hts : a.timestamp = b.timestamp := le_antisymm h2 h1
        simp only [List.map_cons, List.nodup_cons] at hn
        apply hn.1
        rw [hts]
        exact List.mem_map_of_mem _ hb1x
      subst hab
      have hn2 : (t1.map RunEntry.timestamp).Nodup := by
        simp only [List.map_cons, List.nodup_cons] at hn
        exact hn.2
      rw [ih t2 hp.cons_inv hs1.of_cons hs2.of_cons hn2]

/-- One store step on the sorted state equals sorting the extended run
set (and truncating). -/
theorem updateRuns_sort_step (as : List RunData) (r : RunData)
    (hids : ((as ++ [r]).map RunData.run_id).Nodup)
    (hts : ((as ++ [r]).map RunData.start_time).Nodup) :
    updateRunsFromRun r ((as.map mkRunEntry).insertionSort runGe) =
      (((as ++ [r]).map mkRunEntry).insertionSort runGe).take 100 := by
  have hfreshId : r.run_id ∉ as.map RunData.run_id := by
    simp only [List.map_append, List.nodup_append, List.map_cons, List.map_nil] at hids
    have := hids.2.2
    intro hmem
    exact this hmem (List.mem_singleton.mpr rfl)
  have hfresh : (mkRunEntry r).id ∉
      ((as.map mkRunEntry).insertionSort runGe).map RunEntry.id := by
    intro hmem
    have hperm := (List.perm_insertionSort runGe (as.map mkRunEntry)).map RunEntry.id
    have hmem2 : (mkRunEntry r).id ∈ (as.map mkRunEntry).map RunEntry.id :=
      hperm.mem_iff.mp hmem
    apply hfreshId
    simpa [List.map_map, Function.comp, mkRunEntry_id] using hmem2
  rw [updateRunsFromRun, upsertRun_of_not_mem _ _ hfresh]
  congr 1
  apply eq_of_perm_sorted_ts_nodup
  · refine (List.perm_insertionSort runGe _).trans ?_
    refine .trans (.append_right [mkRunEntry r]
      (List.perm_insertionSort runGe (as.map mkRunEntry))) ?_
    rw [show (as ++ [r]).map mkRunEntry = as.map mkRunEntry ++ [mkRunEntry r] by simp]
    exact (List.perm_insertionSort runGe _).symm
  · exact List.sorted_insertionSort runGe _
  · exact List.sorted_insertionSort runGe _
  · have hbase : (((as ++ [r]).map mkRunEntry).map RunEntry.timestamp).Nodup := by
      have : ((as ++ [r]).map mkRunEntry).map RunEntry.timestamp =
          (as ++ [r]).map RunData.start_time := by
        simp [List.map_map, Function.comp, mkRunEntry_timestamp]
      rw [this]
      exact hts
    have hperm : List.Perm
        ((((as.map mkRunEntry).insertionSort runGe ++ [mkRunEntry r]).insertionSort
          runGe).map RunEntry.timestamp)
        (((as ++ [r]).map mkRunEntry).map RunEntry.timestamp) := by
      refine List.Perm.map _ ?_
      refine (List.perm_insertionSort runGe _).trans ?_
      refine .trans (.append_right [mkRunEntry r]
        (List.perm_insertionSort runGe (as.map mkRunEntry))) ?_
      rw [show (as ++ [r]).map mkRunEntry = as.map mkRunEntry ++ [mkRunEntry r] by simp]
    exact hperm.nodup_iff.mpr hbase

/-- Folding at most 100 distinct runs from an empty store yields exactly
the descending sort of their entries. -/
theorem storeRunsFold_eq_sort (rds : List RunData)
    (hids : (rds.map RunData.run_id).Nodup)
    (hts : (rds.map RunData.start_time).Nodup)
    (hlen : rds.length ≤ 100) :
    storeRunsFold rds = (rds.map mkRunEntry).insertionSort runGe := by
  induction rds using List.reverseRecOn with
  | nil => rfl
  | append_singleton as r ih =>
    have hids1 : (as.map RunData.run_id).Nodup := by
      simp only [List.map_append, List.nodup_append] at hids
      exact hids.1
    have hts1 : (as.map RunData.start_time).Nodup := by
      simp only [List.map_append, List.nodup_append] at hts
      exact hts.1
    have hlen1 : as.length ≤ 100 := by
      have : as.length + 1 ≤ 100 := by simpa using hlen
      omega
    have hfold : storeRunsFold (as ++ [r]) = updateRunsFromRun r (storeRunsFold as) := by
      simp [storeRunsFold, List.foldl_append]
    rw [hfold, ih hids1 hts1 hlen1, updateRuns_sort_step as r hids hts]
    apply List.take_of_length_le
    rw [List.length_insertionSort]
    simpa using hlen

/-- Claim C7: after every `storeRun`, the runs list has pairwise-distinct
`run_id`s (a call with an existing id replaces that record with the new
values), is sorted by start timestamp descending, and holds at most 100
entries; and storing 101 distinct runs from scratch retains exactly the
100 most recent by start timestamp, the evicted entry carrying the
minimal timestamp. -/
theorem runs_list_invariant :
    (∀ (rd : RunData) (l : List RunEntry), (l.map RunEntry.id).Nodup →
      ((updateRunsFromRun rd l).map RunEntry.id).Nodup ∧
      List.Sorted runGe (updateRunsFromRun rd l) ∧
      (updateRunsFromRun rd l).length ≤ 100 ∧
      (∀ x ∈ updateRunsFromRun rd l, x.id = rd.run_id → x = mkRunEntry rd)) ∧
    (∀ rds : List RunData, (rds.map RunData.run_id).Nodup →
      (rds.map RunData.start_time).Nodup → rds.length = 101 →
      storeRunsFold rds = (((rds.map mkRunEntry).insertionSort runGe).take 100) ∧
      ∃ dropped : RunEntry,
        List.Perm (rds.map mkRunEntry) (dropped :: storeRunsFold rds) ∧
        ∀ x ∈ storeRunsFold rds, dropped.timestamp ≤ x.timestamp) := by
  constructor
  · intro rd l hn
    refine ⟨?_, ?_, ?_, ?_⟩
    · have hup := nodup_map_id_upsertRun (mkRunEntry rd) l hn
      have hsorted : (((upsertRun (mkRunEntry rd) l).insertionSort runGe).map
          RunEntry.id).Nodup :=
        ((List.perm_insertionSort runGe _).map RunEntry.id).nodup_iff.mpr hup
      rw [updateRunsFromRun, List.map_take]
      exact hsorted.sublist (List.take_sublist 100 _)
    · rw [updateRunsFromRun]
      exact (List.sorted_insertionSort runGe _).sublist (List.take_sublist 100 _)
    · rw [updateRunsFromRun]
      exact List.length_take_le 100 _
    · intro x hx hxid
      rw [updateRunsFromRun] at hx
      have hx2 := List.mem_of_mem_take hx
      have hx3 := (List.mem_insertionSort runGe).mp hx2
      exact mem_upsertRun_eq (mkRunEntry rd) l x hn hx3 (by rw [hxid]; rfl)
  · intro rds hids hts hlen
    rcases List.eq_nil_or_concat' rds with rfl | ⟨as, r, rfl⟩
    · cases hlen
    · have hids1 : (as.map RunData.run_id).Nodup := by
        simp only [List.map_append, List.nodup_append] at hids
        exact hids.1
      have hts1 : (as.map RunData.start_time).Nodup := by
        simp only [List.map_append, List.nodup_append] at hts
        exact hts.1
      have hlen1 : as.length = 100 := by
        have : as.length + 1 = 101 := by simpa using hlen
        omega
      have hfold : storeRunsFold (as ++ [r]) = updateRunsFromRun r (storeRunsFold as) := by
        simp [storeRunsFold, List.foldl_append]
      have hmain : storeRunsFold (as ++ [r]) =
          (((as ++ [r]).map mkRunEntry).insertionSort runGe).take 100 := by
        rw [hfold, storeRunsFold_eq_sort as hids1 hts1 (le_of_eq hlen1),
          updateRuns_sort_step as r hids hts]
      refine ⟨hmain, ?_⟩
      have hlenS : (((as ++ [r]).map mkRunEntry).insertionSort runGe).length = 101 := by
        rw [List.length_insertionSort]
        simpa using hlen
      have hdroplen : ((((as ++ [r]).map mkRunEntry).insertionSort runGe).drop
          100).length = 1 := by
        rw [List.length_drop, hlenS]
      obtain ⟨d, hd⟩ := List.length_eq_one.mp hdroplen
      refine ⟨d, ?_, ?_⟩
      · rw [hmain]
        refine .trans (List.perm_insertionSort runGe ((as ++ [r]).map mkRunEntry)).symm ?_
        nth_rewrite 1 [← List.take_append_drop 100
          (((as ++ [r]).map mkRunEntry).insertionSort runGe)]
        rw [hd]
        exact List.perm_append_singleton d _
      · intro x hx
        rw [hmain] at hx
        have hpw := List.sorted_insertionSort runGe ((as ++ [r]).map mkRunEntry)
        have hsplit := (List.take_append_drop 100
          (((as ++ [r]).map mkRunEntry).insertionSort runGe)).symm
        rw [hsplit] at hpw
        have := (List.pairwise_append.mp hpw).2.2 x hx d (by rw [hd]; simp)
        exact this

/-- Witness for C7: the single-step invariant applied to an empty runs
list, and the 101-run eviction applied to runs `0..100` with strictly
increasing timestamps. -/
theorem runs_list_invariant_witness :
    (((updateRunsFromRun ⟨"r1", "success", 5, none, none, none⟩ []).map
        RunEntry.id).Nodup ∧
      List.Sorted runGe (updateRunsFromRun ⟨"r1", "success", 5, none, none, none⟩ []) ∧
      (updateRunsFromRun ⟨"r1", "success", 5, none, none, none⟩ []).length ≤ 100 ∧
      (∀ x ∈ updateRunsFromRun ⟨"r1", "success", 5, none, none, none⟩ [],
        x.id = "r1" → x = mkRunEntry ⟨"r1", "success", 5, none, none, none⟩)) ∧
    (storeRunsFold ((List.range 101).map
        (fun i => ⟨toString i, "success", i, none, none, none⟩)) =
      ((((List.range 101).map
        (fun i => (⟨toString i, "success", i, none, none, none⟩ : RunData))).map
          mkRunEntry).insertionSort runGe).take 100 ∧
      ∃ dropped : RunEntry,
        List.Perm (((List.range 101).map
          (fun i => (⟨toString i, "success", i, none, none, none⟩ : RunData))).map
            mkRunEntry)
          (dropped :: storeRunsFold ((List.range 101).map
            (fun i => ⟨toString i, "success", i, none, none, none⟩))) ∧
        ∀ x ∈ storeRunsFold ((List.range 101).map
          (fun i => ⟨toString i, "success", i, none, none, none⟩)),
          dropped.timestamp ≤ x.timestamp) :=
  ⟨runs_list_invariant.1 ⟨"r1", "success", 5, none, none, none⟩ [] (by decide),
    runs_list_invariant.2 ((List.range 101).map
      (fun i => ⟨toString i, "success", i, none, none, none⟩))
      (by decide) (by decide) (by decide)⟩

end BorgDash
